import Mathlib

/-!
Shallow embedding of the core retrieval engine of the breslov-voice-assistant
repository: the semantic chunker (src/backend/src/processors/semanticChunker.ts,
first document), the index builder (same file, second document) and the
hierarchical router (src/backend/src/rag/geminiGenerator.ts, second document).
TypeScript classes are flattened to top-level functions; `logger` calls and all
file-system / network effects are dropped; `Map` objects become association
lists in insertion order (matching JS `Map` iteration order); JS numbers are
modelled by an explicit unnormalised rational type with `Option` used for NaN
where NaN is reachable.  Notes on every deliberate modelling gap appear next to
the definition concerned.
-/

set_option autoImplicit false

/-! ## JS number model

JS numbers in this code are produced from integer counts by +, *, / and
Math.min / Math.max, so every reachable value is rational (or NaN).  `JsRat`
is an unnormalised fraction; the denominator is positive for every value the
embedded code constructs.  NaN is modelled by `Option JsRat` (`none` = NaN)
at the places where the source can actually produce NaN (0/0). -/

structure JsRat where
  num : Int
  den : Nat
  deriving Repr, DecidableEq

/-- Embed an integer count as a JS number. -/
def JsRat.ofNat (n : Nat) : JsRat := ⟨n, 1⟩

def JsRat.ofInt (n : Int) : JsRat := ⟨n, 1⟩

/-- Addition of fractions, without normalisation. -/
def JsRat.add (a b : JsRat) : JsRat := ⟨a.num * b.den + b.num * a.den, a.den * b.den⟩

def JsRat.mul (a b : JsRat) : JsRat := ⟨a.num * b.num, a.den * b.den⟩

/-- Division a / b for b with nonzero numerator.  (a.num/a.den)/(b.num/b.den)
= (a.num * b.den) / (a.den * b.num); the sign of b.num is moved into the
numerator so that the denominator stays a natural number. -/
def JsRat.div (a b : JsRat) : JsRat := ⟨a.num * b.den * b.num.sign, a.den * b.num.natAbs⟩

/-- Boolean strict comparison a < b via cross multiplication (denominators are
positive for every value the embedded code builds). -/
def JsRat.ltB (a b : JsRat) : Bool := a.num * b.den < b.num * a.den

def JsRat.gtB (a b : JsRat) : Bool := JsRat.ltB b a

/-- JS Math.min on two numbers (no NaN involved at this call site). -/
def JsRat.minJ (a b : JsRat) : JsRat := if JsRat.ltB b a then b else a

/-- JS Math.max on two numbers. -/
def JsRat.maxJ (a b : JsRat) : JsRat := if JsRat.ltB a b then b else a

/-- Value is exactly zero (denominators are positive). -/
def JsRat.isZero (a : JsRat) : Bool := a.num = 0

/-- A JS number that may be NaN: `none` is NaN. -/
def JsNum : Type := Option JsRat

instance : DecidableEq JsNum := by unfold JsNum; infer_instance

instance : Repr JsNum := by unfold JsNum; infer_instance

/-- NaN-propagating addition. -/
def jsAdd (a b : JsNum) : JsNum :=
  match a, b with
  | some x, some y => some (x.add y)
  | _, _ => none

/-- NaN-propagating multiplication by a constant. -/
def jsMulC (a : JsNum) (c : JsRat) : JsNum := a.map (JsRat.mul · c)

/-- JS division x / y restricted to the call sites of this code base, where the
numerator never exceeds the denominator: a zero denominator therefore always
comes with a zero numerator, and JS evaluates 0 / 0 to NaN. -/
def jsDiv (a b : JsRat) : JsNum := if b.num = 0 then none else some (a.div b)

/-- NaN-propagating comparison: in JS, NaN > c is false. -/
def jsGtB (a : JsNum) (c : JsRat) : Bool :=
  match a with
  | none => false
  | some x => x.gtB c

/-- JS `x || 0`: both NaN and 0 are falsy and give 0. -/
def jsOrZero (a : JsNum) : JsRat :=
  match a with
  | none => JsRat.ofNat 0
  | some x => if x.isZero then JsRat.ofNat 0 else x

/-- NaN-propagating Math.min against a plain number (`Math.min(NaN, c)` is NaN). -/
def jsMinC (a : JsNum) (c : JsRat) : JsNum := a.map (JsRat.minJ · c)

/-! ## List and string primitives

The TypeScript uses JS string/array built-ins; they are re-implemented here by
structural recursion (so that the kernel can evaluate them in witnesses).  All
strings handled by this code are in the Basic Multilingual Plane, where the JS
UTF-16 based length/substring agree with the character-based ones used here. -/

/-- Stable insertion step: x is placed before the first element that does not
strictly precede it under gtB. -/
def insertD {α : Type} (gtB : α → α → Bool) (x : α) : List α → List α
  | [] => [x]
  | y :: ys => if gtB y x then y :: insertD gtB x ys else x :: y :: ys

/-- Stable descending sort, matching the stable JS Array.prototype.sort with a
comparator (a, b) =&gt; key b - key a: elements comparing equal keep their
original relative order. -/
def sortD {α : Type} (gtB : α → α → Bool) : List α → List α
  | [] => []
  | x :: xs => insertD gtB x (sortD gtB xs)

/-- First-occurrence deduplication, the JS [...new Set(l)]. -/
def dedupFirst {α : Type} [DecidableEq α] : List α → List α → List α
  | [], _ => []
  | x :: xs, seen => if x ∈ seen then dedupFirst xs seen else x :: dedupFirst xs (x :: seen)

def dedup {α : Type} [DecidableEq α] (l : List α) : List α := dedupFirst l []

/-- Association-list read, the JS Map.get (first matching key). -/
def aGet {β : Type} : List (String × β) → String → Option β
  | [], _ => none
  | (k, v) :: rest, key => if k = key then some v else aGet rest key

/-- Association-list write, the JS Map.set: replaces in place, keeping the
original insertion position, or appends a new entry at the end. -/
def aSet {β : Type} : List (String × β) → String → β → List (String × β)
  | [], key, v => [(key, v)]
  | (k, w) :: rest, key, v => if k = key then (k, v) :: rest else (k, w) :: aSet rest key v

/-- Read-modify-write on an association list (the get-or-default then set idiom). -/
def aUpd {β : Type} (m : List (String × β)) (key : String) (f : Option β → β) : List (String × β) :=
  aSet m key (f (aGet m key))

/-- Does the needle occur as a prefix of the haystack list. -/
def listPrefixB {α : Type} [DecidableEq α] : List α → List α → Bool
  | [], _ => true
  | _ :: _, [] => false
  | a :: as, b :: bs => decide (a = b) && listPrefixB as bs

/-- Does the needle occur as a contiguous sublist of the haystack. -/
def listInfixB {α : Type} [DecidableEq α] : List α → List α → Bool
  | n, [] => n.isEmpty
  | n, h :: hs' => listPrefixB n (h :: hs') || listInfixB n hs'

/-- JS String.prototype.includes. -/
def strIncludes (hay needle : String) : Bool := listInfixB needle.toList hay.toList

/-- JS String.prototype.startsWith. -/
def strStartsWith (s p : String) : Bool := listPrefixB p.toList s.toList

/-- JS substring(0, n) / slice(0, n) on a string. -/
def strTake (s : String) (n : Nat) : String := String.mk (s.toList.take n)

def strLen (s : String) : Nat := s.toList.length

/-- JS Array.prototype.join(sep). -/
def joinSep (sep : String) : List String → String
  | [] => ""
  | [x] => x
  | x :: y :: xs => x ++ sep ++ joinSep sep (y :: xs)

/-- The whitespace class of the JS regexes used here (the texts this system
handles only contain the ASCII members plus NBSP). -/
def jsWsB (c : Char) : Bool :=
  c = ' ' || c = '\t' || c = '\n' || c = '\x0d' || c.val = 11 || c.val = 12 || c.val = 160

/-- Lowercasing a string character by character; the texts handled here are
ASCII + Hebrew, where this agrees with JS toLowerCase (Hebrew has no case). -/
def strLower (s : String) : String := String.mk (s.toList.map Char.toLower)

def wordsAux : List Char → List Char → List String
  | [], cur => if cur.isEmpty then [] else [String.mk cur]
  | c :: cs, cur =>
    if jsWsB c then
      if cur.isEmpty then wordsAux cs [] else String.mk cur :: wordsAux cs []
    else wordsAux cs (cur ++ [c])

/-- The non-empty tokens of s.split(/\s+/): maximal runs of non-whitespace.
The JS split can additionally yield one leading empty token, which every caller
in this code base removes with a length filter, so only the non-empty tokens
are modelled. -/
def splitWs (s : String) : List String := wordsAux s.toList []

/-- Is c a Hebrew letter of the regex class [א-ת] (U+05D0 to U+05EA). -/
def isHebrewAlefBet (c : Char) : Bool := 0x05D0 ≤ c.val && c.val ≤ 0x05EA

/-- Is c in the regex class [֐-׿]. -/
def isHebrewBlock (c : Char) : Bool := 0x0590 ≤ c.val && c.val ≤ 0x05FF

def hebrewRunsAux : List Char → List Char → List String
  | [], cur => if cur.isEmpty then [] else [String.mk cur]
  | c :: cs, cur =>
    if isHebrewBlock c then hebrewRunsAux cs (cur ++ [c])
    else if cur.isEmpty then hebrewRunsAux cs [] else String.mk cur :: hebrewRunsAux cs []

/-- query.match(/[֐-׿]+/g): the maximal runs of Hebrew-block characters. -/
def hebrewRuns (s : String) : List String := hebrewRunsAux s.toList []

def dropWhileB {α : Type} (p : α → Bool) : List α → List α
  | [] => []
  | x :: xs => if p x then dropWhileB p xs else x :: xs

/-- Anchored test for the pattern p ++ \s+ ++ one character of class cls, as
used by the ^-anchored RegExp.test calls of the chunker: the prefix p must be
followed by at least one whitespace character and then a character of cls. -/
def anchoredPrefixClass (s : String) (p : String) (cls : Char → Bool) : Bool :=
  if strStartsWith s p then
    let rest := s.toList.drop p.toList.length
    match rest with
    | [] => false
    | c :: _ =>
      jsWsB c &&
        (match dropWhileB jsWsB rest with
         | [] => false
         | d :: _ => cls d)
  else false

/-- Decimal value of a digit list. -/
def digitsToNat (l : List Char) : Nat :=
  l.foldl (fun n c => n * 10 + (c.toNat - 48)) 0

/-- JS parseInt on the strings this code feeds it (optional sign then digits
after whitespace); NaN when no leading digit is found. -/
def jsParseInt (s : String) : JsNum :=
  let cs := dropWhileB jsWsB s.toList
  let (sign, cs') : Int × List Char :=
    match cs with
    | '-' :: rest => (-1, rest)
    | '+' :: rest => (1, rest)
    | _ => (1, cs)
  let digits := cs'.takeWhile (fun c => c.isDigit)
  if digits.isEmpty then none
  else some ⟨sign * digitsToNat digits, 1⟩

/-! ## Semantic chunker data model (semanticChunker.ts, first document)

The `any`-typed book/section records are given the shape the chunker actually
reads: `title` is the empty string when the JS field is undefined (both are
falsy in the `section.title || ...` read).  The `Chunk` fields `embedding` and
`searchVectors` (never written by the chunker) and the overlap-context strings
(`metadata.context`, floating-point substring arithmetic touched by no claim)
are omitted. -/

structure Sect where
  title : String
  hebrewText : String
  englishText : Option String
  frenchText : Option String
  reference : String
  index : Nat
  deriving Repr, DecidableEq

structure Book where
  id : String
  title : String
  sections : List Sect
  deriving Repr, DecidableEq

structure Citation where
  source : String
  text : String
  deriving Repr, DecidableEq

structure ChunkContent where
  hebrew : String
  english : Option String
  french : Option String
  deriving Repr, DecidableEq

structure ChunkMetadata where
  reference : String
  startIndex : Nat
  endIndex : Nat
  tokenCount : Nat
  themes : List String
  citations : List Citation
  deriving Repr, DecidableEq

structure Chunk where
  id : String
  bookId : String
  sectionId : String
  content : ChunkContent
  metadata : ChunkMetadata
  embedding : Option (List JsRat) := none
  deriving Repr, DecidableEq

inductive UnitType where
  | torah | story | prayer | section
  deriving Repr, DecidableEq

structure SemanticUnit where
  id : String
  type : UnitType
  sections : List Sect
  tokenCount : Nat
  themes : List String
  deriving Repr, DecidableEq

/-- ChunkingOptions; overlapRatio and preserveSemanticUnits are read only by
the omitted overlap-context construction (and never, respectively) and are left
out. -/
structure ChunkingOptions where
  maxTokens : Nat
  minTokens : Nat
  deriving Repr, DecidableEq

def DEFAULT_OPTIONS : ChunkingOptions := { maxTokens := 75000, minTokens := 50000 }

/-- estimateTokens: Math.ceil(text.length / 4). -/
def estimateTokens (text : String) : Nat := (strLen text + 3) / 4

/-- isTorahStart: the three ^-anchored patterns tested against
section.title || section.hebrewText.substring(0, 50). -/
def isTorahStart (s : Sect) : Bool :=
  let probe := if s.title = "" then strTake s.hebrewText 50 else s.title
  anchoredPrefixClass probe "תורה" isHebrewAlefBet ||
  anchoredPrefixClass probe "Torah" (fun c => c.isDigit) ||
  anchoredPrefixClass probe "סימן" isHebrewAlefBet

def storyMarkers : List String := ["מעשה", "היה פעם", "מעשה ב", "Once there was", "Story of"]

def isStoryStart (s : Sect) : Bool :=
  let text := strTake s.hebrewText 100
  storyMarkers.any (fun marker => strIncludes text marker)

def prayerMarkers : List String := ["רבונו של עולם", "יהי רצון", "תפילה", "Master of the Universe"]

def isPrayerStart (s : Sect) : Bool :=
  let text := strTake s.hebrewText 100
  prayerMarkers.any (fun marker => strIncludes text marker)

def themeKeywords : List (String × List String) :=
  [("תפילה", ["תפילה", "להתפלל", "תפלה"]),
   ("שמחה", ["שמחה", "לשמוח", "שמח"]),
   ("אמונה", ["אמונה", "להאמין", "מאמין"]),
   ("תשובה", ["תשובה", "לשוב", "חזרה"]),
   ("צדיק", ["צדיק", "צדיקים", "הצדיק"]),
   ("תורה", ["תורה", "ללמוד", "לימוד"]),
   ("התבודדות", ["התבודדות", "להתבודד", "בודד"])]

def extractThemes (text : String) : List String :=
  (themeKeywords.filter (fun tk => tk.2.any (fun kw => strIncludes text kw))).map (·.1)

def prayerThemeKeywords : List (String × List String) :=
  [("הודאה", ["תודה", "להודות", "מודה"]),
   ("בקשה", ["בקשה", "לבקש", "מבקש"]),
   ("שבח", ["שבח", "לשבח", "משבח"]),
   ("וידוי", ["וידוי", "להתוודות", "מתוודה"])]

def extractPrayerThemes (text : String) : List String :=
  dedup (extractThemes text ++
    (prayerThemeKeywords.filter (fun tk => tk.2.any (fun kw => strIncludes text kw))).map (·.1))

/-- The shared boundary-scan shape of identifyTorahUnits / identifyStoryUnits /
identifyPrayerUnits: a section matching the start predicate closes the current
unit and opens a new one; sections before the first match are skipped (the
`else if (current)` branch of the source drops them). -/
def scanUnits (isStart : Sect → Bool) (mkId : Nat → String) (utype : UnitType)
    (themesOf : String → List String) :
    List Sect → Option SemanticUnit → List SemanticUnit → List SemanticUnit
  | [], cur, acc =>
    match cur with
    | some u => acc ++ [u]
    | none => acc
  | s :: rest, cur, acc =>
    if isStart s then
      let acc' :=
        match cur with
        | some u => acc ++ [u]
        | none => acc
      scanUnits isStart mkId utype themesOf rest
        (some { id := mkId (acc'.length + 1), type := utype, sections := [s],
                tokenCount := estimateTokens s.hebrewText,
                themes := themesOf s.hebrewText }) acc'
    else
      match cur with
      | some u =>
        scanUnits isStart mkId utype themesOf rest
          (some { u with
                    sections := u.sections ++ [s],
                    tokenCount := u.tokenCount + estimateTokens s.hebrewText }) acc
      | none => scanUnits isStart mkId utype themesOf rest none acc

def identifyTorahUnits (book : Book) : List SemanticUnit :=
  scanUnits isTorahStart (fun n => "torah_" ++ toString n) UnitType.torah extractThemes
    book.sections none []

def identifyStoryUnits (book : Book) : List SemanticUnit :=
  scanUnits isStoryStart (fun n => "story_" ++ toString n) UnitType.story extractThemes
    book.sections none []

def identifyPrayerUnits (book : Book) : List SemanticUnit :=
  scanUnits isPrayerStart (fun n => "prayer_" ++ toString n) UnitType.prayer extractPrayerThemes
    book.sections none []

/-- Fixed grouping of a list into runs of ten consecutive elements, the
`for (i += 10) slice(i, i + 10)` loop of identifyDefaultUnits. -/
def groupsOfTenAux : List Sect → List Sect → Nat → List (List Sect)
  | [], cur, _ => if cur.isEmpty then [] else [cur]
  | s :: rest, cur, left =>
    match left with
    | 0 => cur :: groupsOfTenAux rest [s] 9
    | l + 1 => groupsOfTenAux rest (cur ++ [s]) l

def groupsOfTen (l : List Sect) : List (List Sect) := groupsOfTenAux l [] 10

def identifyDefaultUnits (book : Book) : List SemanticUnit :=
  (groupsOfTen book.sections).enum.map fun p =>
    { id := "unit_" ++ toString (p.1 + 1),
      type := UnitType.section,
      sections := p.2,
      tokenCount := (p.2.map (fun s => estimateTokens s.hebrewText)).sum,
      themes := extractThemes (joinSep " " (p.2.map (·.hebrewText))) }

def identifySemanticUnits (book : Book) : List SemanticUnit :=
  if strIncludes book.id "likutey_moharan" then identifyTorahUnits book
  else if strIncludes book.id "sippurei_maasiyot" then identifyStoryUnits book
  else if strIncludes book.id "tefilot" then identifyPrayerUnits book
  else identifyDefaultUnits book

/-- splitLargeUnit target size: Math.floor(maxTokens * 0.8), modelled with
exact rational arithmetic (the double rounding of 0.8 never moves the floor
for the magnitudes involved). -/
def splitTarget (options : ChunkingOptions) : Nat := options.maxTokens * 8 / 10

def splitGo (options : ChunkingOptions) (uid : String) (utype : UnitType)
    (uthemes : List String) :
    List Sect → List Sect → Nat → List SemanticUnit → List SemanticUnit
  | [], curS, curTok, acc =>
    if curS.isEmpty then acc
    else acc ++ [{ id := uid ++ "_part" ++ toString (acc.length + 1), type := utype,
                   sections := curS, tokenCount := curTok, themes := uthemes }]
  | s :: rest, curS, curTok, acc =>
    let st := estimateTokens s.hebrewText
    if curTok + st > splitTarget options && !curS.isEmpty then
      let acc' := acc ++ [{ id := uid ++ "_part" ++ toString (acc.length + 1), type := utype,
                            sections := curS, tokenCount := curTok, themes := uthemes }]
      splitGo options uid utype uthemes rest [s] st acc'
    else splitGo options uid utype uthemes rest (curS ++ [s]) (curTok + st) acc

def splitLargeUnit (unit : SemanticUnit) (options : ChunkingOptions) : List SemanticUnit :=
  splitGo options unit.id unit.type unit.themes unit.sections [] 0 []

def unitsTok (g : List SemanticUnit) : Nat := (g.map (·.tokenCount)).sum

def groupGo (options : ChunkingOptions) :
    List SemanticUnit → List (List SemanticUnit) → List SemanticUnit → Nat →
      List (List SemanticUnit)
  | [], groups, cur, curTok =>
    if cur.isEmpty then groups
    else if curTok < options.minTokens && !groups.isEmpty then
      let lastG := groups.getLastD []
      let lastTok := unitsTok lastG
      if lastTok + curTok ≤ options.maxTokens then groups.dropLast ++ [lastG ++ cur]
      else groups ++ [cur]
    else groups ++ [cur]
  | u :: rest, groups, cur, curTok =>
    if u.tokenCount > options.maxTokens then
      let groups' := if cur.isEmpty then groups else groups ++ [cur]
      let parts := splitLargeUnit u options
      groupGo options rest (groups' ++ parts.map (fun p => [p])) []
        (if cur.isEmpty then curTok else 0)
    else if curTok + u.tokenCount > options.maxTokens then
      let groups' := if cur.isEmpty then groups else groups ++ [cur]
      groupGo options rest groups' [u] u.tokenCount
    else groupGo options rest groups (cur ++ [u]) (curTok + u.tokenCount)

def groupUnitsIntoChunks (units : List SemanticUnit) (options : ChunkingOptions) :
    List (List SemanticUnit) :=
  groupGo options units [] [] 0

/-- extractCitations: the source iterates two regex patterns through
String.prototype.matchAll; the second pattern (the curly-quote one) has no
global flag, and matchAll throws a TypeError for a non-global RegExp, so this
function throws on every input before returning anything (the matches of the
first, global pattern are accumulated and then lost).  The error value models
that TypeError. -/
def matchAllTypeError : String :=
  "TypeError: String.prototype.matchAll called with a non-global RegExp argument"

def extractCitations (_text : String) : Except String (List Citation) :=
  Except.error matchAllTypeError

def extractUniqueThemes (units : List SemanticUnit) : List String :=
  dedup (units.flatMap (·.themes))

/-- generateChunkId; the MD5 hex digest is abstracted as the function
parameter md5hex (its first 8 hex characters are used). -/
def generateChunkId (md5hex : String → String) (bookId : String) (index : Nat)
    (content : String) : String :=
  bookId ++ "_chunk_" ++ toString index ++ "_" ++ strTake (md5hex (strTake content 100)) 8

def defaultSect : Sect :=
  { title := "", hebrewText := "", englishText := none, frenchText := none,
    reference := "", index := 0 }

def generateReference (units : List SemanticUnit) : String :=
  let firstSection := ((units.headD ⟨"", UnitType.section, [], 0, []⟩).sections.headD defaultSect)
  let lastUnit := units.getLastD ⟨"", UnitType.section, [], 0, []⟩
  let lastSection := lastUnit.sections.getLastD defaultSect
  if firstSection.reference = lastSection.reference then firstSection.reference
  else firstSection.reference ++ " - " ++ lastSection.reference

/-- createChunk (called createChunkE here because it propagates the
extractCitations TypeError).  The overlap-context construction
(getOverlapContext) only feeds the omitted metadata.context field and is not
modelled.  The headD/getLastD defaults stand for the undefined JS reads on an
empty group, which chunkBook never produces. -/
def createChunkE (md5hex : String → String) (bookId : String) (units : List SemanticUnit)
    (index : Nat) : Except String Chunk := do
  let allSections := units.flatMap (·.sections)
  let hebrewText := joinSep "\n\n" (allSections.map (·.hebrewText))
  let englishText := joinSep "\n\n" (allSections.map (fun s => s.englishText.getD ""))
  let frenchText := joinSep "\n\n" (allSections.map (fun s => s.frenchText.getD ""))
  let themes := extractUniqueThemes units
  let citations ← extractCitations hebrewText
  let chunkId := generateChunkId md5hex bookId index hebrewText
  pure
    { id := chunkId,
      bookId := bookId,
      sectionId := (units.headD ⟨"", UnitType.section, [], 0, []⟩).id,
      content :=
        { hebrew := hebrewText,
          english := if englishText = "" then none else some englishText,
          french := if frenchText = "" then none else some frenchText },
      metadata :=
        { reference := generateReference units,
          startIndex := (allSections.headD defaultSect).index,
          endIndex := (allSections.getLastD defaultSect).index,
          tokenCount := unitsTok units,
          themes := themes,
          citations := citations } }

def chunkLoop (md5hex : String → String) (bookId : String) :
    List (List SemanticUnit) → Nat → Except String (List Chunk)
  | [], _ => Except.ok []
  | g :: rest, i => do
    let c ← createChunkE md5hex bookId g i
    let cs ← chunkLoop md5hex bookId rest (i + 1)
    pure (c :: cs)

/-- chunkBook; the Promise rejection raised by the matchAll TypeError inside
createChunk is the Except.error case. -/
def chunkBook (md5hex : String → String) (book : Book) (options : ChunkingOptions) :
    Except String (List Chunk) :=
  let semanticUnits := identifySemanticUnits book
  let groupedUnits := groupUnitsIntoChunks semanticUnits options
  chunkLoop md5hex book.id groupedUnits 0


/-! ## Index builder (semanticChunker.ts, second document: class IndexBuilder)

The builder is a pure function of the books, the per-book chunk map and the
clock: every `new Date()` is modelled by one `now : Nat` parameter placed in
the `created` fields.  `estimateIndexSize` (Math.ceil(JSON.stringify(x).length
/ 4)) is abstracted as the function parameters sizeB / sizeM; JSON serialises
Date values at a fixed width, so the real estimator is invariant under the
`created` timestamp, which is exactly the hypothesis the idempotence theorem
takes.  Directory creation and index saving are I/O and are dropped.  JS Maps
keyed by id become association lists in insertion order (ids are pairwise
distinct in any input this system builds). -/

structure BookSummary where
  id : String
  title : String
  hebrewTitle : String
  sections : Nat
  chunks : Nat
  totalTokens : Nat
  themes : List String
  summary : String
  keywordEmbeddings : Option (List (List JsRat))
  deriving Repr, DecidableEq

structure BookReference where
  bookId : String
  weight : JsRat
  deriving Repr, DecidableEq

/-- MasterIndex; the optional embeddingDimensions field is never written and
is omitted. -/
structure MasterIndex where
  version : String
  created : Nat
  totalBooks : Nat
  totalTokens : Nat
  books : List BookSummary
  searchIndex : List (String × List String)
  thematicMap : List (String × List BookReference)
  deriving Repr, DecidableEq

structure SectionInfo where
  id : String
  title : String
  themes : List String
  summary : String
  chunkIds : List String
  tokenCount : Nat
  keywords : List String
  embedding : Option (List JsRat)
  deriving Repr, DecidableEq

/-- The children field of a hierarchy node: the source only ever stores either
no children field (undefined) or an empty array (buildTorahHierarchy creates
children: [] and nothing appends to it), so only the presence of the field is
modelled, keeping the node non-recursive. -/
inductive HNodeChildren where
  | absent | presentEmpty
  deriving Repr, DecidableEq

structure HierarchyNode where
  id : String
  type : String
  title : String
  children : HNodeChildren
  chunkIds : List String
  deriving Repr, DecidableEq

structure BookStructure where
  sections : List SectionInfo
  hierarchy : List HierarchyNode
  deriving Repr, DecidableEq

structure ChunkReference where
  id : String
  sectionId : String
  reference : String
  summary : String
  keywords : List String
  themes : List String
  tokenCount : Nat
  embedding : Option (List JsRat)
  deriving Repr, DecidableEq

structure CrossReference where
  fromSection : String
  toSection : String
  type : String
  strength : JsRat
  deriving Repr, DecidableEq

/-- BookIndex; the source field `structure` is a Lean keyword and is called
bookStructure here. -/
structure BookIndex where
  bookId : String
  title : String
  hebrewTitle : String
  created : Nat
  bookStructure : BookStructure
  chunks : List ChunkReference
  thematicMap : List (String × List String)
  crossReferences : List CrossReference
  totalTokens : Nat
  deriving Repr, DecidableEq

structure ChunkIndex where
  chunkId : String
  bookId : String
  created : Nat
  reference : String
  tokenCount : Nat
  themes : List String
  keywords : List String
  citations : List Citation
  relatedChunks : List String
  embedding : Option (List JsRat)
  bm25Vector : List (String × JsRat)
  deriving Repr, DecidableEq

/-- The fields of the `any`-typed book records that IndexBuilder reads. -/
structure IndexedBook where
  id : String
  title : String
  hebrewTitle : String
  deriving Repr, DecidableEq

def countOccurrences (items : List String) : List (String × Nat) :=
  items.foldl (fun acc it => aUpd acc it (fun o => o.getD 0 + 1)) []

def stopWords : List String := ["את", "של", "על", "אל", "מן", "עם", "הוא", "היא", "הם", "הן"]

/-- extractKeywords: frequency count of all whitespace tokens, then the
non-stop-words longer than 2 characters, stably sorted by descending count
(Object.entries iterates in first-occurrence order and JS sort is stable),
capped at 50. -/
def extractKeywords (text : String) : List String :=
  let wordCounts := countOccurrences (splitWs text)
  let filtered := wordCounts.filter fun p => !stopWords.contains p.1 && p.1.toList.length > 2
  ((sortD (fun a b => decide (a.2 > b.2)) filtered).take 50).map (·.1)

/-- buildBM25Vector: per-word counts of words longer than 2 characters,
normalised by the maximum count (the empty text yields the empty vector and
no division happens). -/
def buildBM25Vector (text : String) : List (String × JsRat) :=
  let vector := (splitWs text).foldl
    (fun acc w => if w.toList.length > 2 then aUpd acc w (fun o => o.getD 0 + 1) else acc) []
  match vector with
  | [] => []
  | _ =>
    let maxCount := (vector.map (·.2)).foldl Nat.max 0
    vector.map fun p => (p.1, (⟨(p.2 : Int), maxCount⟩ : JsRat))

def buildChunkIndex (now : Nat) (chunk : Chunk) : ChunkIndex :=
  { chunkId := chunk.id,
    bookId := chunk.bookId,
    created := now,
    reference := chunk.metadata.reference,
    tokenCount := chunk.metadata.tokenCount,
    themes := chunk.metadata.themes,
    keywords := extractKeywords chunk.content.hebrew,
    citations := chunk.metadata.citations,
    relatedChunks := [],
    embedding := chunk.embedding,
    bm25Vector := buildBM25Vector chunk.content.hebrew }

/-- The similarity score of findRelatedChunks: 0.6 × theme-overlap ratio +
0.4 × keyword-overlap ratio; each ratio is NaN (none) when both operand lists
are empty, as 0 / 0 is in JS. -/
def relatedScore (c o : ChunkIndex) : JsNum :=
  let commonThemes := (c.themes.filter (o.themes.contains ·)).length
  let themeScore := jsDiv (JsRat.ofNat commonThemes)
    (JsRat.ofNat (Nat.max c.themes.length o.themes.length))
  let commonKeywords := (c.keywords.filter (o.keywords.contains ·)).length
  let keywordScore := jsDiv (JsRat.ofNat commonKeywords)
    (JsRat.ofNat (Nat.max c.keywords.length o.keywords.length))
  jsAdd (jsMulC themeScore ⟨6, 10⟩) (jsMulC keywordScore ⟨4, 10⟩)

/-- The entries pushed for one chunk: every other chunk of the whole map
(the loop does not restrict to the same book) whose score exceeds 0.3. -/
def relatedCandidates (all : List ChunkIndex) (c : ChunkIndex) : List (String × JsRat) :=
  all.filterMap fun o =>
    if o.chunkId = c.chunkId then none
    else
      match relatedScore c o with
      | none => none
      | some v => if v.gtB ⟨3, 10⟩ then some (o.chunkId, v) else none

def relatedFor (all : List ChunkIndex) (c : ChunkIndex) : List String :=
  ((sortD (fun a b => JsRat.gtB a.2 b.2) (relatedCandidates all c)).take 5).map (·.1)

/-- findRelatedChunks rewrites relatedChunks of every entry; the in-place
mutation of the source never feeds back into the scores (which read only
themes and keywords), so a map is faithful. -/
def findRelatedChunks (l : List ChunkIndex) : List ChunkIndex :=
  l.map fun c => { c with relatedChunks := relatedFor l c }

def buildChunkIndexes (now : Nat) (chunksMap : List (String × List Chunk)) : List ChunkIndex :=
  findRelatedChunks (chunksMap.flatMap fun p => p.2.map (buildChunkIndex now))

def generateSectionSummary (s : SectionInfo) : String :=
  s.title ++ ": " ++ joinSep ", " (s.themes.take 3)

def emptySectionInfo (sectionId : String) : SectionInfo :=
  { id := sectionId, title := "Section " ++ sectionId, themes := [], summary := "",
    chunkIds := [], tokenCount := 0, keywords := [], embedding := none }

def buildSectionInfo (chunks : List Chunk) : List SectionInfo :=
  let m := chunks.foldl
    (fun acc c =>
      aUpd acc c.sectionId fun o =>
        let s := o.getD (emptySectionInfo c.sectionId)
        { s with
            chunkIds := s.chunkIds ++ [c.id],
            tokenCount := s.tokenCount + c.metadata.tokenCount,
            themes := s.themes ++ c.metadata.themes,
            keywords := s.keywords ++ extractKeywords c.content.hebrew })
    []
  m.map fun p =>
    let s1 := { p.2 with themes := dedup p.2.themes, keywords := (dedup p.2.keywords).take 20 }
    { s1 with summary := generateSectionSummary s1 }

def torahHierGo : List SectionInfo → Option HierarchyNode → List HierarchyNode → Nat →
    List HierarchyNode
  | [], cur, acc, _ =>
    match cur with
    | some t => acc ++ [t]
    | none => acc
  | s :: rest, cur, acc, n =>
    if strIncludes s.title "Torah" || strIncludes s.title "תורה" then
      let acc' :=
        match cur with
        | some t => acc ++ [t]
        | none => acc
      torahHierGo rest
        (some { id := "torah_" ++ toString n, type := "torah", title := s.title,
                children := HNodeChildren.presentEmpty, chunkIds := s.chunkIds })
        acc' (n + 1)
    else
      match cur with
      | some t => torahHierGo rest (some { t with chunkIds := t.chunkIds ++ s.chunkIds }) acc n
      | none => torahHierGo rest none acc n

def buildTorahHierarchy (sections : List SectionInfo) : List HierarchyNode :=
  torahHierGo sections none [] 1

def storyHierGo : List SectionInfo → Nat → List HierarchyNode
  | [], _ => []
  | s :: rest, n =>
    if s.themes.contains "story" || strIncludes s.title "מעשה" then
      { id := "story_" ++ toString n, type := "story", title := s.title,
        children := HNodeChildren.absent, chunkIds := s.chunkIds } :: storyHierGo rest (n + 1)
    else storyHierGo rest n

def buildStoryHierarchy (sections : List SectionInfo) : List HierarchyNode :=
  storyHierGo sections 1

def buildPrayerHierarchy (sections : List SectionInfo) : List HierarchyNode :=
  sections.enum.map fun p =>
    { id := "prayer_" ++ toString (p.1 + 1), type := "prayer", title := p.2.title,
      children := HNodeChildren.absent, chunkIds := p.2.chunkIds }

def buildHierarchy (bookId : String) (sections : List SectionInfo) : List HierarchyNode :=
  if strIncludes bookId "likutey_moharan" then buildTorahHierarchy sections
  else if strIncludes bookId "sippurei_maasiyot" then buildStoryHierarchy sections
  else if strIncludes bookId "tefilot" then buildPrayerHierarchy sections
  else sections.map fun s =>
    { id := s.id, type := "section", title := s.title,
      children := HNodeChildren.absent, chunkIds := s.chunkIds }

def generateChunkSummary (chunk : Chunk) : String :=
  chunk.metadata.reference ++ ": " ++ strTake chunk.content.hebrew 100 ++ "..."

def buildChunkReference (chunk : Chunk) : ChunkReference :=
  { id := chunk.id,
    sectionId := chunk.sectionId,
    reference := chunk.metadata.reference,
    summary := generateChunkSummary chunk,
    keywords := (extractKeywords chunk.content.hebrew).take 10,
    themes := chunk.metadata.themes,
    tokenCount := chunk.metadata.tokenCount,
    embedding := chunk.embedding }

def buildThematicMap (chunks : List Chunk) : List (String × List String) :=
  chunks.foldl
    (fun acc c =>
      c.metadata.themes.foldl (fun acc2 th => aUpd acc2 th fun o => o.getD [] ++ [c.id]) acc)
    []

def crossPairs : List SectionInfo → List CrossReference
  | [] => []
  | s :: rest =>
    (rest.filterMap fun t =>
      let commonThemes := s.themes.filter (t.themes.contains ·)
      if commonThemes.length > 0 then
        some { fromSection := s.id, toSection := t.id, type := "theme",
               strength := (⟨(commonThemes.length : Int),
                             Nat.max s.themes.length t.themes.length⟩ : JsRat) }
      else none) ++ crossPairs rest

def findCrossReferences (sections : List SectionInfo) (chunks : List Chunk) :
    List CrossReference :=
  crossPairs sections ++
    chunks.flatMap fun c =>
      c.metadata.citations.flatMap fun cit =>
        (chunks.filter fun sc => strIncludes sc.content.hebrew cit.source).filterMap fun sc =>
          if sc.id ≠ c.id then
            some { fromSection := c.sectionId, toSection := sc.sectionId, type := "quote",
                   strength := (⟨8, 10⟩ : JsRat) }
          else none

/-- buildBookIndex; its chunkIndexes parameter is unused in the source body
and is not modelled. -/
def buildBookIndex (now : Nat) (book : IndexedBook) (chunks : List Chunk) : BookIndex :=
  let sections := buildSectionInfo chunks
  { bookId := book.id,
    title := book.title,
    hebrewTitle := book.hebrewTitle,
    created := now,
    bookStructure := { sections := sections, hierarchy := buildHierarchy book.id sections },
    chunks := chunks.map buildChunkReference,
    thematicMap := buildThematicMap chunks,
    crossReferences := findCrossReferences sections chunks,
    totalTokens := (chunks.map (·.metadata.tokenCount)).sum }

def compressBookIndex (index : BookIndex) : BookIndex :=
  { index with
      chunks := index.chunks.map fun c =>
        { c with summary := strTake c.summary 50, keywords := c.keywords.take 5 },
      bookStructure :=
        { index.bookStructure with
            sections := index.bookStructure.sections.map fun s =>
              { s with keywords := s.keywords.take 10, summary := strTake s.summary 50 } } }

def buildBookIndexes (sizeB : BookIndex → Nat) (now : Nat) (books : List IndexedBook)
    (chunksMap : List (String × List Chunk)) : List (String × BookIndex) :=
  books.map fun b =>
    let chunks := (aGet chunksMap b.id).getD []
    let bookIndex := buildBookIndex now b chunks
    (b.id, if sizeB bookIndex > 200000 then compressBookIndex bookIndex else bookIndex)

def extractTopThemes (bookIndex : BookIndex) : List String :=
  ((sortD (fun a b => decide (a.2 > b.2))
      (bookIndex.thematicMap.map fun p => (p.1, p.2.length))).take 10).map (·.1)

def generateBookSummary (book : IndexedBook) (bookIndex : BookIndex) : String :=
  book.hebrewTitle ++ ": " ++ toString bookIndex.bookStructure.sections.length ++
    " sections, " ++ toString bookIndex.chunks.length ++ " chunks. Main themes: " ++
    joinSep ", " (extractTopThemes bookIndex)

def updateGlobalSearchIndex (index : List (String × List String)) (bookId : String)
    (bookIndex : BookIndex) : List (String × List String) :=
  let index1 := bookIndex.thematicMap.foldl
    (fun acc p => aUpd acc p.1 fun o => o.getD [] ++ [bookId ++ ":" ++ toString p.2.length])
    index
  (countOccurrences (bookIndex.chunks.flatMap (·.keywords))).foldl
    (fun acc p =>
      if p.2 > 5 then aUpd acc p.1 fun o => o.getD [] ++ [bookId ++ ":" ++ toString p.2]
      else acc)
    index1

/-- updateGlobalThematicMap; the weight divides by the book's chunk count,
which is positive whenever the thematic map has an entry. -/
def updateGlobalThematicMap (map : List (String × List BookReference)) (bookId : String)
    (bookIndex : BookIndex) : List (String × List BookReference) :=
  bookIndex.thematicMap.foldl
    (fun acc p =>
      aUpd acc p.1 fun o =>
        o.getD [] ++ [{ bookId := bookId,
                        weight := (⟨(p.2.length : Int), bookIndex.chunks.length⟩ : JsRat) }])
    map

def compressMasterIndex (index : MasterIndex) : MasterIndex :=
  { index with
      books := index.books.map fun b =>
        { b with summary := strTake b.summary 100, themes := b.themes.take 5 },
      searchIndex := index.searchIndex.map fun p => (p.1, p.2.take 10) }

def buildMasterIndex (sizeM : MasterIndex → Nat) (now : Nat) (books : List IndexedBook)
    (bookIndexes : List (String × BookIndex)) : MasterIndex :=
  let acc := books.foldl
    (fun (acc : List BookSummary × List (String × List String) ×
            List (String × List BookReference) × Nat) b =>
      match aGet bookIndexes b.id with
      | none => acc
      | some bookIndex =>
        let summary : BookSummary :=
          { id := b.id, title := b.title, hebrewTitle := b.hebrewTitle,
            sections := bookIndex.bookStructure.sections.length,
            chunks := bookIndex.chunks.length,
            totalTokens := bookIndex.totalTokens,
            themes := extractTopThemes bookIndex,
            summary := generateBookSummary b bookIndex,
            keywordEmbeddings := some [] }
        (acc.1 ++ [summary],
         updateGlobalSearchIndex acc.2.1 b.id bookIndex,
         updateGlobalThematicMap acc.2.2.1 b.id bookIndex,
         acc.2.2.2 + bookIndex.totalTokens))
    ([], [], [], 0)
  let masterIndex : MasterIndex :=
    { version := "1.0.0", created := now, totalBooks := books.length,
      totalTokens := acc.2.2.2, books := acc.1, searchIndex := acc.2.1,
      thematicMap := acc.2.2.1 }
  if sizeM masterIndex > 100000 then compressMasterIndex masterIndex else masterIndex

structure BuildResult where
  masterIndex : MasterIndex
  bookIndexes : List (String × BookIndex)
  chunkIndexes : List ChunkIndex
  deriving Repr, DecidableEq

def buildAllIndexes (sizeM : MasterIndex → Nat) (sizeB : BookIndex → Nat) (now : Nat)
    (books : List IndexedBook) (chunksMap : List (String × List Chunk)) : BuildResult :=
  let chunkIndexes := buildChunkIndexes now chunksMap
  let bookIndexes := buildBookIndexes sizeB now books chunksMap
  let masterIndex := buildMasterIndex sizeM now books bookIndexes
  { masterIndex := masterIndex, bookIndexes := bookIndexes, chunkIndexes := chunkIndexes }

/-- Erase the build timestamp of a master index. -/
def stripMaster (mi : MasterIndex) : MasterIndex := { mi with created := 0 }

def stripBookIndex (bi : BookIndex) : BookIndex := { bi with created := 0 }

def stripBookIndexes (l : List (String × BookIndex)) : List (String × BookIndex) :=
  l.map fun p => (p.1, stripBookIndex p.2)

/-! ## Hierarchical router (geminiGenerator.ts, second document:
class HierarchicalRouter)

The router's environment is a record: the loaded indexes, the chunk store
(loadChunksForSection reads one JSON file per chunk id; load failures are
`none` and are skipped), the Redis cache (`none` when Redis is unavailable;
entries are keyed by the MD5 of the query, which is collision-free on the
queries involved, so the model keys the cache by the query itself), the
embedding provider (returns `none` when OpenAI is not configured or the call
fails) and the floating-point Math.sqrt, abstracted as sqrtFn.  The in-memory
chunksCache only memoises successful immutable reads and is transparent. -/

structure BookScore where
  bookId : String
  title : String
  score : JsRat
  reason : String
  deriving Repr, DecidableEq

structure SectionCandidate where
  bookId : String
  sectionId : String
  score : JsRat
  chunkIds : List String
  deriving Repr, DecidableEq

structure RouteResult where
  query : String
  books : List BookScore
  sections : List SectionCandidate
  chunks : List Chunk
  totalTokens : Nat
  confidence : JsNum
  fromCache : Bool
  strategy : String
  deriving Repr, DecidableEq

/-- SearchOptions; minConfidence and language are defaulted by route but never
read afterwards and are omitted. -/
structure SearchOptions where
  maxTokens : Option Nat := none
  useCache : Option Bool := none
  deriving Repr, DecidableEq

structure Router where
  masterIndex : Option MasterIndex
  bookIndexes : List (String × BookIndex)
  chunkStore : String → String → Option Chunk
  cache : Option (String → Option RouteResult)
  embedProvider : String → Option (List JsRat)
  sqrtFn : JsRat → JsRat

def MAX_CONTEXT_TOKENS : Nat := 900000

def themeMap : List (String × List String) :=
  [("joie", ["שמחה", "simcha"]),
   ("prière", ["תפילה", "tefila"]),
   ("foi", ["אמונה", "emuna"]),
   ("repentance", ["תשובה", "teshuva"]),
   ("torah", ["תורה", "torah"]),
   ("tsadik", ["צדיק", "tzadik"]),
   ("hitbodedout", ["התבודדות", "hitbodedut"])]

def detectThematicKeywords (query : String) : List String :=
  themeMap.flatMap fun p => if strIncludes (strLower query) p.1 then p.2 else []

def extractQueryKeywords (query : String) : List String :=
  let normalized := strLower query
  let words := (splitWs normalized).filter fun w => w.toList.length > 2
  let hebrewKeywords := if query.toList.any isHebrewBlock then hebrewRuns query else []
  let thematicKeywords := detectThematicKeywords query
  dedup (words ++ hebrewKeywords ++ thematicKeywords)

/-- cosineSimilarity; the source accumulates the dot product and both squared
norms in one loop, takes Math.sqrt of the norms (sqrtFn here), returns 0 on
length mismatch or a zero norm, else dot / (norm1 * norm2). -/
def cosineSimilarity (sqrtFn : JsRat → JsRat) (vec1 vec2 : List JsRat) : JsRat :=
  if vec1.length ≠ vec2.length then ⟨0, 1⟩
  else
    let dotProduct := (List.zipWith JsRat.mul vec1 vec2).foldl JsRat.add ⟨0, 1⟩
    let norm1 := sqrtFn ((vec1.map fun x => x.mul x).foldl JsRat.add ⟨0, 1⟩)
    let norm2 := sqrtFn ((vec2.map fun x => x.mul x).foldl JsRat.add ⟨0, 1⟩)
    if norm1.isZero || norm2.isZero then ⟨0, 1⟩
    else dotProduct.div (norm1.mul norm2)

def splitOnCharAux (c : Char) : List Char → List Char → List String
  | [], cur => [String.mk cur]
  | x :: xs, cur =>
    if x = c then String.mk cur :: splitOnCharAux c xs []
    else splitOnCharAux c xs (cur ++ [x])

/-- JS String.prototype.split with a one-character separator. -/
def splitOnChar (c : Char) (s : String) : List String := splitOnCharAux c s.toList []

/-- The `m.get(k) || 0` read on a map whose stored scores can be NaN: an
absent key, a stored NaN and a stored 0 all give 0. -/
def jsGetOrZero (m : List (String × JsNum)) (k : String) : JsRat :=
  match aGet m k with
  | none => ⟨0, 1⟩
  | some jn => jsOrZero jn

def explainBookRelevance (book : BookSummary) (lexicalScore thematicScore semanticScore : JsRat) :
    String :=
  let reasons :=
    (if lexicalScore.gtB ⟨2, 10⟩ then ["Strong keyword match"] else []) ++
    (if thematicScore.gtB ⟨3, 10⟩ then
      ["Relevant themes: " ++ joinSep ", " (book.themes.take 3)] else []) ++
    (if semanticScore.gtB ⟨5, 10⟩ then ["High semantic similarity"] else [])
  let joined := joinSep "; " reasons
  if joined = "" then "General relevance" else joined

/-- The lexical pass of searchMasterIndex: for every query keyword, every
"bookId:count" reference under it contributes parseInt(count) / 100, with the
stored running total first passed through `|| 0` (so a NaN left by an earlier
malformed reference reads back as 0). -/
def lexicalPass (mi : MasterIndex) (queryKeywords : List String) : List (String × JsNum) :=
  queryKeywords.foldl
    (fun acc kw =>
      match aGet mi.searchIndex kw with
      | none => acc
      | some bookRefs =>
        bookRefs.foldl
          (fun acc2 ref =>
            let parts := splitOnChar ':' ref
            let bookId := parts.headD ""
            let score : JsNum :=
              match parts[1]? with
              | none => none
              | some cs => (jsParseInt cs).map (JsRat.div · ⟨100, 1⟩)
            let prev : JsRat := jsGetOrZero acc2 bookId
            aSet acc2 bookId (jsAdd (some prev) score))
          acc)
    []

/-- The thematic pass: accumulated weights (the `|| 0` is the identity on
these plain numbers). -/
def thematicPass (mi : MasterIndex) (queryKeywords : List String) : List (String × JsRat) :=
  queryKeywords.foldl
    (fun acc kw =>
      match aGet mi.thematicMap kw with
      | none => acc
      | some bookRefs =>
        bookRefs.foldl
          (fun acc2 ref => aUpd acc2 ref.bookId fun o => (o.getD ⟨0, 1⟩).add ref.weight)
          acc)
    []

/-- The semantic pass: guarded by the presence (JS truthiness, so an empty
array also passes) of keywordEmbeddings on the FIRST book summary, then per
book only if its own list is present and non-empty; the score is the maximum
cosine similarity. -/
def semanticPass (sqrtFn : JsRat → JsRat) (mi : MasterIndex)
    (queryEmbedding : Option (List JsRat)) : List (String × JsRat) :=
  let gate := queryEmbedding.isSome &&
    (match mi.books.head? with
     | some b0 => b0.keywordEmbeddings.isSome
     | none => false)
  if gate then
    mi.books.foldl
      (fun acc book =>
        match book.keywordEmbeddings with
        | some embs =>
          if embs.length > 0 then
            let sims := embs.map fun emb =>
              cosineSimilarity sqrtFn (queryEmbedding.getD []) emb
            let maxSim :=
              match sims with
              | [] => ⟨0, 1⟩
              | s :: rest => rest.foldl JsRat.maxJ s
            aSet acc book.id maxSim
          else acc
        | none => acc)
      []
  else []

def searchMasterIndex (sqrtFn : JsRat → JsRat) (mi : MasterIndex)
    (queryEmbedding : Option (List JsRat)) (queryKeywords : List String) : List BookScore :=
  let lexicalMatches := lexicalPass mi queryKeywords
  let thematicMatches := thematicPass mi queryKeywords
  let semanticMatches := semanticPass sqrtFn mi queryEmbedding
  let allBookIds := dedup (lexicalMatches.map (·.1) ++ thematicMatches.map (·.1) ++
    semanticMatches.map (·.1))
  let bookScores := allBookIds.filterMap fun bookId =>
    let lexicalScore := jsGetOrZero lexicalMatches bookId
    let thematicScore := (aGet thematicMatches bookId).getD ⟨0, 1⟩
    let semanticScore := (aGet semanticMatches bookId).getD ⟨0, 1⟩
    let totalScore := ((lexicalScore.mul ⟨3, 10⟩).add (thematicScore.mul ⟨3, 10⟩)).add
      (semanticScore.mul ⟨4, 10⟩)
    if totalScore.gtB ⟨1, 10⟩ then
      match mi.books.find? (fun b => b.id = bookId) with
      | some book =>
        some { bookId := book.id, title := book.title, score := totalScore,
               reason := explainBookRelevance book lexicalScore thematicScore semanticScore }
      | none => none
    else none
  (sortD (fun a b => JsRat.gtB a.score b.score) bookScores).take 3

def searchBookIndexes (sqrtFn : JsRat → JsRat) (bookIndexes : List (String × BookIndex))
    (books : List BookScore) (queryEmbedding : Option (List JsRat))
    (queryKeywords : List String) : List SectionCandidate :=
  let candidates := books.flatMap fun book =>
    match aGet bookIndexes book.bookId with
    | none => []
    | some bookIndex =>
      let sectionScores := bookIndex.bookStructure.sections.foldl
        (fun (acc : List (String × JsRat)) sect =>
          let keywordOverlap := (queryKeywords.filter fun kw => sect.keywords.contains kw).length
          let s1 := (JsRat.ofNat keywordOverlap).mul ⟨2, 10⟩
          let themeOverlap := (queryKeywords.filter fun kw => sect.themes.contains kw).length
          let s2 := s1.add ((JsRat.ofNat themeOverlap).mul ⟨3, 10⟩)
          let s3 :=
            match queryEmbedding, sect.embedding with
            | some qe, some se => s2.add ((cosineSimilarity sqrtFn qe se).mul ⟨5, 10⟩)
            | _, _ => s2
          let score := s3.mul book.score
          if score.gtB ⟨1, 10⟩ then aSet acc sect.id score else acc)
        []
      let topSections := (sortD (fun a b => JsRat.gtB a.2 b.2) sectionScores).take 5
      topSections.filterMap fun p =>
        match bookIndex.bookStructure.sections.find? (fun s => s.id = p.1) with
        | some sect =>
          some { bookId := book.bookId, sectionId := p.1, score := p.2,
                 chunkIds := sect.chunkIds }
        | none => none
  (sortD (fun a b => JsRat.gtB a.score b.score) candidates).take 10

def loadChunksForSection (store : String → String → Option Chunk) (bookId : String)
    (chunkIds : List String) : List Chunk :=
  chunkIds.filterMap (store bookId)

/-- truncateChunk: the float ratio maxTokens / tokenCount times the text
length, floored, is the exact rational floor here (tokenCount is positive at
the single call site).  The English and French texts are cut at the
hebrewLength too, exactly as in the source. -/
def truncateChunk (chunk : Chunk) (maxTokens : Nat) : Chunk :=
  let hebrewLength := strLen chunk.content.hebrew * maxTokens / chunk.metadata.tokenCount
  { chunk with
      content :=
        { hebrew := strTake chunk.content.hebrew hebrewLength ++ "...",
          english := chunk.content.english.map fun e => strTake e hebrewLength ++ "...",
          french := chunk.content.french.map fun f => strTake f hebrewLength ++ "..." },
      metadata := { chunk.metadata with tokenCount := maxTokens } }

/-- The inner chunk loop of retrieveChunks over one candidate's loaded chunks:
returns the grown accumulator, the running total, and whether the token limit
was hit (the source returns from the whole function there). -/
def retrieveInner (maxTokens : Nat) :
    List Chunk → List Chunk → Nat → List Chunk × Nat × Bool
  | [], acc, tot => (acc, tot, false)
  | c :: rest, acc, tot =>
    let chunkTokens := c.metadata.tokenCount
    if tot + chunkTokens > maxTokens then
      if maxTokens - tot > 10000 then
        (acc ++ [truncateChunk c (maxTokens - tot)], tot + (maxTokens - tot), true)
      else (acc, tot, true)
    else retrieveInner maxTokens rest (acc ++ [c]) (tot + chunkTokens)

/-- The candidate loop of retrieveChunks; the early-stop once the total
exceeds 80% of the budget (a float product in the source, exact here: the
comparison totalTokens &gt; maxTokens * 0.8 is 10 * totalTokens &gt; 8 * maxTokens). -/
def retrieveGo (store : String → String → Option Chunk) (maxTokens : Nat) :
    List SectionCandidate → List Chunk → Nat → List Chunk
  | [], acc, _ => acc
  | cand :: rest, acc, tot =>
    let candidateChunks := loadChunksForSection store cand.bookId cand.chunkIds
    let res := retrieveInner maxTokens candidateChunks acc tot
    if res.2.2 then res.1
    else if 10 * res.2.1 > 8 * maxTokens then res.1
    else retrieveGo store maxTokens rest res.1 res.2.1

def retrieveChunks (store : String → String → Option Chunk)
    (candidates : List SectionCandidate) (maxTokens : Nat) : List Chunk :=
  retrieveGo store maxTokens candidates [] 0

/-- calculateConfidence; the query parameter of the source is never read and
is dropped.  keywordCoverage divides by queryKeywords.length with no guard:
for a non-empty chunk list and an empty keyword list this is JS 0 / 0 = NaN
(none), which then propagates through + and Math.min. -/
def calculateConfidence (chunks : List Chunk) (queryKeywords : List String) : JsNum :=
  if chunks.isEmpty then some ⟨0, 1⟩
  else
    let f1 := (JsRat.minJ ⟨(chunks.length : Int), 10⟩ ⟨1, 1⟩).mul ⟨3, 10⟩
    let allChunkKeywords := chunks.flatMap fun c => extractQueryKeywords c.content.hebrew
    let keywordMatches := (queryKeywords.filter fun kw => allChunkKeywords.contains kw).length
    let keywordCoverage := jsDiv (JsRat.ofNat keywordMatches)
      (JsRat.ofNat queryKeywords.length)
    let conf1 := jsAdd (some f1) (jsMulC keywordCoverage ⟨4, 10⟩)
    let allThemes := chunks.flatMap (·.metadata.themes)
    let themeMatches := (queryKeywords.filter fun kw => allThemes.contains kw).length
    let themeAlignment : JsRat := ⟨(themeMatches : Int), Nat.max queryKeywords.length 1⟩
    jsMinC (jsAdd conf1 (some (themeAlignment.mul ⟨3, 10⟩))) ⟨1, 1⟩

def createEmptyResult (query : String) : RouteResult :=
  { query := query, books := [], sections := [], chunks := [], totalTokens := 0,
    confidence := some ⟨0, 1⟩, fromCache := false, strategy := "NoResults" }

/-- The cache read of route: only when useCache and Redis is available. -/
def cachedResult (r : Router) (useCache : Bool) (query : String) : Option RouteResult :=
  if useCache then
    match r.cache with
    | some f => f query
    | none => none
  else none

/-- route.  The source computes the query embedding and keywords first and
then throws inside searchMasterIndex when no master index is loaded; the check
is hoisted before those pure computations with the same observable outcome.
The cache write after a successful routing is an external effect and is not
part of the returned value. -/
def route (r : Router) (query : String) (options : SearchOptions) : Except String RouteResult :=
  let maxTokens := options.maxTokens.getD MAX_CONTEXT_TOKENS
  let useCache := options.useCache.getD true
  match cachedResult r useCache query with
  | some cached => Except.ok { cached with fromCache := true }
  | none =>
    match r.masterIndex with
    | none => Except.error "Master index not loaded"
    | some mi =>
      let queryEmbedding := r.embedProvider query
      let queryKeywords := extractQueryKeywords query
      let relevantBooks := searchMasterIndex r.sqrtFn mi queryEmbedding queryKeywords
      if relevantBooks.isEmpty then Except.ok (createEmptyResult query)
      else
        let sectionCandidates := searchBookIndexes r.sqrtFn r.bookIndexes relevantBooks
          queryEmbedding queryKeywords
        if sectionCandidates.isEmpty then Except.ok (createEmptyResult query)
        else
          let chunks := retrieveChunks r.chunkStore sectionCandidates maxTokens
          let confidence := calculateConfidence chunks queryKeywords
          let totalTokens := (chunks.map (·.metadata.tokenCount)).sum
          Except.ok
            { query := query, books := relevantBooks, sections := sectionCandidates,
              chunks := chunks, totalTokens := totalTokens, confidence := confidence,
              fromCache := false, strategy := "HierarchicalRouting" }


/-! ## Lemmas about splitLargeUnit (claims C3, C4) -/

/-- The token estimate of one section. -/
def sectTok (s : Sect) : Nat := estimateTokens s.hebrewText

theorem splitGo_sections (options : ChunkingOptions) (uid : String) (utype : UnitType)
    (uthemes : List String) :
    ∀ (rest : List Sect) (curS : List Sect) (curTok : Nat) (acc : List SemanticUnit),
      (splitGo options uid utype uthemes rest curS curTok acc).flatMap (·.sections) =
        acc.flatMap (·.sections) ++ curS ++ rest := by
  intro rest
  induction rest with
  | nil =>
    intro curS curTok acc
    cases hc : curS.isEmpty
    · simp [splitGo, hc]
    · have hce : curS = [] := List.isEmpty_iff.mp hc
      subst hce
      simp [splitGo]
  | cons s rest ih =>
    intro curS curTok acc
    cases hcond : (decide (curTok + estimateTokens s.hebrewText > splitTarget options) &&
        !curS.isEmpty)
    · simp only [splitGo, hcond, Bool.false_eq_true, if_false]
      rw [ih]
      simp
    · simp only [splitGo, hcond, if_true]
      rw [ih]
      simp

theorem splitLargeUnit_sections (unit : SemanticUnit) (options : ChunkingOptions) :
    (splitLargeUnit unit options).flatMap (·.sections) = unit.sections := by
  unfold splitLargeUnit
  rw [splitGo_sections]
  simp

theorem splitGo_tokens (options : ChunkingOptions) (uid : String) (utype : UnitType)
    (uthemes : List String) :
    ∀ (rest : List Sect) (curS : List Sect) (curTok : Nat) (acc : List SemanticUnit),
      curTok = (curS.map sectTok).sum →
      ((splitGo options uid utype uthemes rest curS curTok acc).map (·.tokenCount)).sum =
        (acc.map (·.tokenCount)).sum + curTok + (rest.map sectTok).sum := by
  intro rest
  induction rest with
  | nil =>
    intro curS curTok acc hinv
    cases hc : curS.isEmpty
    · simp [splitGo, hc]
    · have hce : curS = [] := List.isEmpty_iff.mp hc
      subst hce
      simp at hinv
      simp [splitGo, hinv]
  | cons s rest ih =>
    intro curS curTok acc hinv
    cases hcond : (decide (curTok + estimateTokens s.hebrewText > splitTarget options) &&
        !curS.isEmpty)
    · simp only [splitGo, hcond, Bool.false_eq_true, if_false]
      rw [ih (curS ++ [s]) (curTok + estimateTokens s.hebrewText) acc (by simp [hinv, sectTok])]
      simp [sectTok]
      omega
    · simp only [splitGo, hcond, if_true]
      rw [ih [s] (estimateTokens s.hebrewText) _ (by simp [sectTok])]
      simp [sectTok]
      omega

theorem splitGo_bound (options : ChunkingOptions) (uid : String) (utype : UnitType)
    (uthemes : List String) :
    ∀ (rest : List Sect) (curS : List Sect) (curTok : Nat) (acc : List SemanticUnit),
      (∀ s ∈ rest, sectTok s ≤ splitTarget options) →
      curTok = (curS.map sectTok).sum →
      curTok ≤ splitTarget options →
      (∀ p ∈ acc, p.tokenCount ≤ splitTarget options) →
      ∀ p ∈ splitGo options uid utype uthemes rest curS curTok acc,
        p.tokenCount ≤ splitTarget options := by
  intro rest
  induction rest with
  | nil =>
    intro curS curTok acc _ _ hcur hacc p hp
    cases hc : curS.isEmpty
    · simp [splitGo, hc] at hp
      rcases hp with hp | hp
      · exact hacc p hp
      · subst hp; exact hcur
    · have hce : curS = [] := List.isEmpty_iff.mp hc
      subst hce
      simp [splitGo] at hp
      exact hacc p hp
  | cons s rest ih =>
    intro curS curTok acc hrest hinv hcur hacc p hp
    have hs : sectTok s ≤ splitTarget options := hrest s (by simp)
    cases hcond : (decide (curTok + estimateTokens s.hebrewText > splitTarget options) &&
        !curS.isEmpty)
    · simp only [splitGo, hcond, Bool.false_eq_true, if_false] at hp
      have hnew : curTok + estimateTokens s.hebrewText ≤ splitTarget options := by
        simp only [Bool.and_eq_false_iff] at hcond
        rcases hcond with hcond | hcond
        · simp at hcond
          omega
        · simp at hcond
          subst hcond
          simp at hinv
          subst hinv
          simpa [sectTok] using hs
      refine ih (curS ++ [s]) (curTok + estimateTokens s.hebrewText) acc
        (fun t ht => hrest t (by simp [ht])) (by simp [hinv, sectTok]) hnew hacc p hp
    · simp only [splitGo, hcond, if_true] at hp
      refine ih [s] (estimateTokens s.hebrewText) _ (fun t ht => hrest t (by simp [ht]))
        (by simp [sectTok]) (by simpa [sectTok] using hs) ?_ p hp
      intro q hq
      simp at hq
      rcases hq with hq | hq
      · exact hacc q hq
      · subst hq; exact hcur

theorem splitTarget_le_max (options : ChunkingOptions) :
    splitTarget options ≤ options.maxTokens := by
  unfold splitTarget
  omega

theorem splitLargeUnit_bound (unit : SemanticUnit) (options : ChunkingOptions)
    (hsec : ∀ s ∈ unit.sections, sectTok s ≤ splitTarget options) :
    ∀ p ∈ splitLargeUnit unit options, p.tokenCount ≤ splitTarget options := by
  unfold splitLargeUnit
  exact splitGo_bound options unit.id unit.type unit.themes unit.sections [] 0 [] hsec
    (by simp) (by omega) (by simp)

/-- C4 (amended): for a unit whose token estimate exceeds maxTokens and whose
individual sections each fit in the 80% target, splitLargeUnit yields at least
two sub-units, each within 80% of maxTokens, whose concatenated section lists
reconstruct the original unit exactly.  (As stated, the claim fails when a
single section alone exceeds the target: sections are never cut, see the
counterexample.) -/
theorem splitLargeUnit_correct (unit : SemanticUnit) (options : ChunkingOptions)
    (hsum : unit.tokenCount = (unit.sections.map sectTok).sum)
    (hbig : unit.tokenCount > options.maxTokens)
    (hsec : ∀ s ∈ unit.sections, sectTok s ≤ splitTarget options) :
    2 ≤ (splitLargeUnit unit options).length ∧
    (∀ p ∈ splitLargeUnit unit options, p.tokenCount ≤ splitTarget options) ∧
    (splitLargeUnit unit options).flatMap (·.sections) = unit.sections := by
  refine ⟨?_, splitLargeUnit_bound unit options hsec, splitLargeUnit_sections unit options⟩
  have htot : ((splitLargeUnit unit options).map (·.tokenCount)).sum =
      (unit.sections.map sectTok).sum := by
    unfold splitLargeUnit
    rw [splitGo_tokens options unit.id unit.type unit.themes unit.sections [] 0 [] (by simp)]
    simp
  have hbound := splitLargeUnit_bound unit options hsec
  have htm := splitTarget_le_max options
  cases hl : splitLargeUnit unit options with
  | nil =>
    rw [hl] at htot
    simp at htot
    omega
  | cons p rest =>
    cases hr : rest with
    | nil =>
      subst hr
      rw [hl] at htot
      simp at htot
      have hp := hbound p (by rw [hl]; simp)
      omega
    | cons q rest2 =>
      subst hr
      simp

def bigSect : Sect :=
  { title := "", hebrewText := String.mk (List.replicate 44 'a'), englishText := none,
    frenchText := none, reference := "r", index := 0 }

def bigUnit : SemanticUnit :=
  { id := "big", type := UnitType.section, sections := [bigSect], tokenCount := 11,
    themes := [] }

def smallOpts : ChunkingOptions := { maxTokens := 10, minTokens := 0 }

/-- C4 (counterexample): a unit made of one 44-character section (estimate 11
tokens) with maxTokens = 10 exceeds the budget, but splitLargeUnit returns one
single sub-unit of 11 tokens, above the 80% target of 8: the split is neither
"multiple sub-units" nor "each at most 80% of maxTokens". -/
theorem splitLargeUnit_single_oversized_section :
    bigUnit.tokenCount = (bigUnit.sections.map sectTok).sum ∧
    bigUnit.tokenCount > smallOpts.maxTokens ∧
    splitLargeUnit bigUnit smallOpts =
      [{ id := "big_part1", type := UnitType.section, sections := [bigSect],
         tokenCount := 11, themes := [] }] ∧
    (splitLargeUnit bigUnit smallOpts).length = 1 ∧
    ¬ (11 ≤ splitTarget smallOpts) := by
  decide

def splitSectA : Sect :=
  { title := "", hebrewText := String.mk (List.replicate 24 'b'), englishText := none,
    frenchText := none, reference := "ra", index := 0 }

def splitSectB : Sect :=
  { title := "", hebrewText := String.mk (List.replicate 24 'c'), englishText := none,
    frenchText := none, reference := "rb", index := 1 }

def splitUnit : SemanticUnit :=
  { id := "u", type := UnitType.section, sections := [splitSectA, splitSectB],
    tokenCount := 12, themes := [] }

/-- C4 (witness): the amended theorem applied to a concrete 12-token unit of
two 6-token sections with maxTokens = 10. -/
theorem splitLargeUnit_correct_witness :
    (splitUnit.tokenCount = (splitUnit.sections.map sectTok).sum ∧
     splitUnit.tokenCount > smallOpts.maxTokens ∧
     ∀ s ∈ splitUnit.sections, sectTok s ≤ splitTarget smallOpts) ∧
    (2 ≤ (splitLargeUnit splitUnit smallOpts).length ∧
     (∀ p ∈ splitLargeUnit splitUnit smallOpts, p.tokenCount ≤ splitTarget smallOpts) ∧
     (splitLargeUnit splitUnit smallOpts).flatMap (·.sections) = splitUnit.sections) :=
  ⟨⟨by decide, by decide, by decide⟩,
   splitLargeUnit_correct splitUnit smallOpts (by decide) (by decide) (by decide)⟩

/-! ## Lemmas about unit identification and grouping (claims C2, C3, C5) -/

theorem scanUnits_pred (P : Sect → Prop) (isStart : Sect → Bool) (mkId : Nat → String)
    (utype : UnitType) (themesOf : String → List String) :
    ∀ (l : List Sect) (cur : Option SemanticUnit) (acc : List SemanticUnit),
      (∀ u ∈ acc, ∀ s ∈ u.sections, P s) →
      (∀ u, cur = some u → ∀ s ∈ u.sections, P s) →
      (∀ s ∈ l, P s) →
      ∀ u ∈ scanUnits isStart mkId utype themesOf l cur acc, ∀ s ∈ u.sections, P s := by
  intro l
  induction l with
  | nil =>
    intro cur acc hacc hcur _ u hu
    cases cur with
    | none => simp [scanUnits] at hu; exact hacc u hu
    | some v =>
      simp [scanUnits] at hu
      rcases hu with hu | hu
      · exact hacc u hu
      · subst hu; exact hcur u rfl
  | cons s rest ih =>
    intro cur acc hacc hcur hl u hu
    have hs : P s := hl s (by simp)
    have hrest : ∀ t ∈ rest, P t := fun t ht => hl t (by simp [ht])
    cases hst : isStart s
    · simp only [scanUnits, hst, Bool.false_eq_true, if_false] at hu
      cases hc : cur with
      | some v =>
        rw [hc] at hu
        refine ih _ acc hacc ?_ hrest u hu
        intro w hw t ht
        injection hw with hw
        subst hw
        simp at ht
        rcases ht with ht | ht
        · exact hcur v hc t ht
        · subst ht; exact hs
      | none =>
        rw [hc] at hu
        exact ih none acc hacc (by simp) hrest u hu
    · simp only [scanUnits, hst, if_true] at hu
      cases hc : cur with
      | some v =>
        rw [hc] at hu
        refine ih _ (acc ++ [v]) ?_ ?_ hrest u hu
        · intro w hw
          simp at hw
          rcases hw with hw | hw
          · exact hacc w hw
          · subst hw; exact hcur _ hc
        · intro w hw t ht
          injection hw with hw
          subst hw
          simp at ht
          subst ht
          exact hs
      | none =>
        rw [hc] at hu
        refine ih _ acc hacc ?_ hrest u hu
        intro w hw t ht
        injection hw with hw
        subst hw
        simp at ht
        subst ht
        exact hs

theorem groupsOfTenAux_flatten :
    ∀ (l : List Sect) (cur : List Sect) (left : Nat),
      (groupsOfTenAux l cur left).flatten = cur ++ l := by
  intro l
  induction l with
  | nil =>
    intro cur left
    cases hc : cur.isEmpty
    · simp [groupsOfTenAux, hc]
    · have hce : cur = [] := List.isEmpty_iff.mp hc
      subst hce
      simp [groupsOfTenAux]
  | cons s rest ih =>
    intro cur left
    cases left with
    | zero => simp [groupsOfTenAux, ih]
    | succ l' => simp [groupsOfTenAux, ih]

theorem identifyDefaultUnits_flatten (book : Book) :
    (identifyDefaultUnits book).flatMap (·.sections) = book.sections := by
  unfold identifyDefaultUnits
  rw [List.flatMap_def, List.map_map]
  have hcomp : ((fun u : SemanticUnit => u.sections) ∘ fun p : Nat × List Sect =>
      ({ id := "unit_" ++ toString (p.1 + 1), type := UnitType.section, sections := p.2,
         tokenCount := (p.2.map (fun s => estimateTokens s.hebrewText)).sum,
         themes := extractThemes (joinSep " " (p.2.map (·.hebrewText))) } : SemanticUnit)) =
      Prod.snd := rfl
  rw [hcomp, List.enum_map_snd]
  unfold groupsOfTen
  rw [groupsOfTenAux_flatten]
  simp

def unitsSections (us : List SemanticUnit) : List Sect := us.flatMap (·.sections)

def groupsSections (gs : List (List SemanticUnit)) : List Sect := gs.flatMap unitsSections

theorem unitsSections_append (a b : List SemanticUnit) :
    unitsSections (a ++ b) = unitsSections a ++ unitsSections b := by
  simp [unitsSections]

theorem groupsSections_append (a b : List (List SemanticUnit)) :
    groupsSections (a ++ b) = groupsSections a ++ groupsSections b := by
  simp [groupsSections]

theorem dropLast_getLastD {α : Type} :
    ∀ (l : List α), l ≠ [] → ∀ (d : α), l.dropLast ++ [l.getLastD d] = l := by
  intro l
  induction l with
  | nil => intro h; exact absurd rfl h
  | cons x rest ih =>
    intro _ d
    cases hr : rest with
    | nil => simp [hr]
    | cons y rest2 =>
      subst hr
      have h2 := ih (by simp) x
      simp only [List.getLastD_cons] at h2
      simp only [List.dropLast_cons₂, List.getLastD_cons, List.cons_append]
      rw [h2]

theorem unitsTok_append (a b : List SemanticUnit) :
    unitsTok (a ++ b) = unitsTok a + unitsTok b := by
  simp [unitsTok]

theorem groupsSections_singletons (ps : List SemanticUnit) :
    groupsSections (ps.map (fun p => [p])) = unitsSections ps := by
  induction ps with
  | nil => simp [groupsSections, unitsSections]
  | cons p rest ih => simp [groupsSections, unitsSections] at ih ⊢; simp [ih]

theorem unitsSections_split (u : SemanticUnit) (options : ChunkingOptions) :
    unitsSections (splitLargeUnit u options) = u.sections := by
  simpa [unitsSections] using splitLargeUnit_sections u options

theorem groupsSections_decomp (groups : List (List SemanticUnit)) (hgne : groups ≠ []) :
    groupsSections groups =
      groupsSections groups.dropLast ++ unitsSections (groups.getLastD []) := by
  conv_lhs => rw [← dropLast_getLastD groups hgne []]
  simp [groupsSections_append, groupsSections]

theorem groupGo_flatten (options : ChunkingOptions) :
    ∀ (units : List SemanticUnit) (groups : List (List SemanticUnit))
      (cur : List SemanticUnit) (curTok : Nat),
      groupsSections (groupGo options units groups cur curTok) =
        groupsSections groups ++ unitsSections cur ++ unitsSections units := by
  intro units
  induction units with
  | nil =>
    intro groups cur curTok
    cases hc : cur.isEmpty
    · cases hm : (decide (curTok < options.minTokens) && !groups.isEmpty)
      · simp only [groupGo, hc, Bool.false_eq_true, if_false, hm]
        simp [groupsSections_append, groupsSections, unitsSections]
      · simp only [groupGo, hc, Bool.false_eq_true, if_false, hm, if_true]
        by_cases hfit : unitsTok (groups.getLastD []) + curTok ≤ options.maxTokens
        · rw [if_pos hfit]
          have hgne : groups ≠ [] := by
            simp only [Bool.and_eq_true, Bool.not_eq_true'] at hm
            simpa [List.isEmpty_iff] using hm.2
          rw [groupsSections_append, groupsSections_decomp groups hgne]
          simp [groupsSections, unitsSections_append, unitsSections]
        · rw [if_neg hfit]
          simp [groupsSections_append, groupsSections, unitsSections]
    · have hce : cur = [] := List.isEmpty_iff.mp hc
      subst hce
      simp [groupGo, unitsSections, groupsSections]
  | cons u rest ih =>
    intro groups cur curTok
    by_cases hbig : u.tokenCount > options.maxTokens
    · simp only [groupGo, if_pos hbig]
      rw [ih]
      rw [groupsSections_append, groupsSections_singletons, unitsSections_split]
      cases hc : cur.isEmpty
      · simp only [Bool.false_eq_true, if_false]
        simp [groupsSections_append, groupsSections, unitsSections]
      · have hce : cur = [] := List.isEmpty_iff.mp hc
        subst hce
        simp [unitsSections]
    · simp only [groupGo, if_neg hbig]
      by_cases hover : curTok + u.tokenCount > options.maxTokens
      · simp only [if_pos hover]
        rw [ih]
        cases hc : cur.isEmpty
        · simp only [Bool.false_eq_true, if_false]
          simp [groupsSections_append, groupsSections, unitsSections]
        · have hce : cur = [] := List.isEmpty_iff.mp hc
          subst hce
          simp [unitsSections]
      · simp only [if_neg hover]
        rw [ih]
        simp [unitsSections_append, unitsSections]

theorem groupGo_bound (options : ChunkingOptions) :
    ∀ (units : List SemanticUnit) (groups : List (List SemanticUnit))
      (cur : List SemanticUnit) (curTok : Nat),
      (∀ u ∈ units, ∀ s ∈ u.sections, sectTok s ≤ splitTarget options) →
      (∀ g ∈ groups, unitsTok g ≤ options.maxTokens) →
      curTok = unitsTok cur →
      curTok ≤ options.maxTokens →
      ∀ g ∈ groupGo options units groups cur curTok, unitsTok g ≤ options.maxTokens := by
  intro units
  induction units with
  | nil =>
    intro groups cur curTok _ hgr hinv hcur g hg
    cases hc : cur.isEmpty
    · cases hm : (decide (curTok < options.minTokens) && !groups.isEmpty)
      · simp only [groupGo, hc, Bool.false_eq_true, if_false, hm] at hg
        simp at hg
        rcases hg with hg | hg
        · exact hgr g hg
        · subst hg; omega
      · simp only [groupGo, hc, Bool.false_eq_true, if_false, hm, if_true] at hg
        by_cases hfit : unitsTok (groups.getLastD []) + curTok ≤ options.maxTokens
        · rw [if_pos hfit] at hg
          rcases List.mem_append.mp hg with hg | hg
          · exact hgr g (List.IsPrefix.subset (List.dropLast_prefix groups) hg)
          · have hge : g = groups.getLastD [] ++ cur := List.mem_singleton.mp hg
            subst hge
            rw [unitsTok_append]
            omega
        · rw [if_neg hfit] at hg
          simp at hg
          rcases hg with hg | hg
          · exact hgr g hg
          · subst hg; omega
    · have hce : cur = [] := List.isEmpty_iff.mp hc
      subst hce
      simp only [groupGo] at hg
      simp at hg
      exact hgr g hg
  | cons u rest ih =>
    intro groups cur curTok hunits hgr hinv hcur g hg
    have hu : ∀ s ∈ u.sections, sectTok s ≤ splitTarget options := hunits u (by simp)
    have hrest : ∀ v ∈ rest, ∀ s ∈ v.sections, sectTok s ≤ splitTarget options :=
      fun v hv => hunits v (by simp [hv])
    have hgr' : ∀ g' ∈ (if cur.isEmpty then groups else groups ++ [cur]),
        unitsTok g' ≤ options.maxTokens := by
      intro g' hg'
      cases hc : cur.isEmpty
      · rw [hc] at hg'
        simp at hg'
        rcases hg' with hg' | hg'
        · exact hgr g' hg'
        · subst hg'; omega
      · rw [hc] at hg'
        simp at hg'
        exact hgr g' hg'
    by_cases hbig : u.tokenCount > options.maxTokens
    · simp only [groupGo, if_pos hbig] at hg
      refine ih _ _ _ ?_ ?_ ?_ ?_ g hg
      · exact hrest
      · intro g' hg'
        simp at hg'
        rcases hg' with hg' | ⟨p, hp, hg'⟩
        · exact hgr' g' (by simpa using hg')
        · subst hg'
          have := splitLargeUnit_bound u options hu p hp
          have htm := splitTarget_le_max options
          simp [unitsTok]
          omega
      · cases hc : cur.isEmpty
        · simp [unitsTok]
        · have hce : cur = [] := List.isEmpty_iff.mp hc
          subst hce
          simp [unitsTok]
          simpa [unitsTok] using hinv
      · cases hc : cur.isEmpty
        · simp [hc]
        · simp [hc]
          omega
    · simp only [groupGo, if_neg hbig] at hg
      by_cases hover : curTok + u.tokenCount > options.maxTokens
      · rw [if_pos hover] at hg
        refine ih _ _ _ hrest (by simpa using hgr') ?_ ?_ g hg
        · simp [unitsTok]
        · omega
      · rw [if_neg hover] at hg
        refine ih _ _ _ hrest hgr ?_ ?_ g hg
        · rw [unitsTok_append, ← hinv]
          simp [unitsTok]
        · omega

deriving instance DecidableEq for Except

theorem identifyDefaultUnits_pred (P : Sect → Prop) (book : Book)
    (hP : ∀ s ∈ book.sections, P s) :
    ∀ u ∈ identifyDefaultUnits book, ∀ s ∈ u.sections, P s := by
  intro u hu s hs
  have hmem : s ∈ (identifyDefaultUnits book).flatMap (·.sections) :=
    List.mem_flatMap.mpr ⟨u, hu, hs⟩
  rw [identifyDefaultUnits_flatten] at hmem
  exact hP s hmem

theorem identifySemanticUnits_pred (P : Sect → Prop) (book : Book)
    (hP : ∀ s ∈ book.sections, P s) :
    ∀ u ∈ identifySemanticUnits book, ∀ s ∈ u.sections, P s := by
  unfold identifySemanticUnits
  cases h1 : strIncludes book.id "likutey_moharan"
  · cases h2 : strIncludes book.id "sippurei_maasiyot"
    · cases h3 : strIncludes book.id "tefilot"
      · simp only [Bool.false_eq_true, if_false]
        exact identifyDefaultUnits_pred P book hP
      · simp only [Bool.false_eq_true, if_false, if_true]
        exact scanUnits_pred P _ _ _ _ book.sections none [] (by simp) (by simp) hP
    · simp only [Bool.false_eq_true, if_false, if_true]
      exact scanUnits_pred P _ _ _ _ book.sections none [] (by simp) (by simp) hP
  · simp only [if_true]
    exact scanUnits_pred P _ _ _ _ book.sections none [] (by simp) (by simp) hP

/-- C3 (amended): with the minTokens lower bound dropped and under the proviso
that no single section exceeds the 80% split target, every group produced by
groupUnitsIntoChunks stays within maxTokens; unitsTok g is exactly the value
createChunk records as the chunk's metadata.tokenCount (the chunk object
itself never materialises because createChunk throws in extractCitations).
The claimed lower bound minTokens is false even for middle chunks, see the
counterexample. -/
theorem groupUnitsIntoChunks_upper_bound (book : Book) (options : ChunkingOptions)
    (hsec : ∀ s ∈ book.sections, sectTok s ≤ splitTarget options) :
    ∀ g ∈ groupUnitsIntoChunks (identifySemanticUnits book) options,
      unitsTok g ≤ options.maxTokens := by
  unfold groupUnitsIntoChunks
  exact groupGo_bound options _ [] [] 0 (identifySemanticUnits_pred _ book hsec) (by simp)
    (by simp [unitsTok]) (by omega)

def sect30 : Sect :=
  { title := "", hebrewText := "aaaa", englishText := none, frenchText := none,
    reference := "r", index := 0 }

def book30 : Book := { id := "plainbook", title := "B", sections := List.replicate 30 sect30 }

def opts3 : ChunkingOptions := { maxTokens := 15, minTokens := 12 }

/-- C3 (counterexample): a default-type book of 30 one-token sections with
maxTokens = 15, minTokens = 12 yields three groups of 10 tokens each; the
middle group (neither first nor last) carries 10 tokens, strictly below
minTokens, so the interval invariant fails for a middle chunk.  chunkBook
itself rejects with the matchAll TypeError before building the chunk records
that would carry these token counts. -/
theorem middle_chunk_below_minTokens :
    (groupUnitsIntoChunks (identifySemanticUnits book30) opts3).length = 3 ∧
    ((groupUnitsIntoChunks (identifySemanticUnits book30) opts3)[1]?).map unitsTok =
      some 10 ∧
    ¬ (opts3.minTokens ≤ 10) ∧
    chunkBook (fun _ => "") book30 opts3 = Except.error matchAllTypeError := by
  decide

/-- C3 (witness): the amended upper bound applied to the concrete 30-section
book. -/
theorem groupUnitsIntoChunks_upper_bound_witness :
    (∀ s ∈ book30.sections, sectTok s ≤ splitTarget opts3) ∧
    (∀ g ∈ groupUnitsIntoChunks (identifySemanticUnits book30) opts3,
      unitsTok g ≤ opts3.maxTokens) :=
  ⟨by decide, groupUnitsIntoChunks_upper_bound book30 opts3 (by decide)⟩

/-- C2 (amended): for a book whose id selects no book-type heuristic (the
default fixed-size grouping), the groups feeding createChunk cover the book's
sections exactly, in order, with no drop and no duplication — the
concatenation of the groups' section lists is the book's section list.  For
heuristic-typed books, sections before the first detected boundary are dropped
from every unit (see the counterexample), and chunkBook itself never returns
chunks because createChunk throws the matchAll TypeError. -/
theorem chunk_groups_cover_sections (book : Book) (options : ChunkingOptions)
    (h1 : strIncludes book.id "likutey_moharan" = false)
    (h2 : strIncludes book.id "sippurei_maasiyot" = false)
    (h3 : strIncludes book.id "tefilot" = false) :
    groupsSections (groupUnitsIntoChunks (identifySemanticUnits book) options) =
      book.sections := by
  unfold groupUnitsIntoChunks
  rw [groupGo_flatten]
  simp only [groupsSections, unitsSections, List.flatMap_nil, List.nil_append]
  unfold identifySemanticUnits
  simp only [h1, h2, h3, Bool.false_eq_true, if_false]
  exact identifyDefaultUnits_flatten book

def sPlain : Sect :=
  { title := "", hebrewText := "shalom text here", englishText := none, frenchText := none,
    reference := "p1", index := 0 }

def sTorah : Sect :=
  { title := "", hebrewText := "Torah 1 teaching", englishText := none, frenchText := none,
    reference := "p2", index := 1 }

def bookTorah : Book := { id := "likutey_moharan_1", title := "LM", sections := [sPlain, sTorah] }

/-- C2 (counterexample): in a Likutey Moharan book whose first section does not
match a Torah-start pattern, that section is dropped from every semantic unit
(identifyTorahUnits only accumulates after the first boundary), so it can
appear in no chunk's primary content; chunkBook moreover rejects with the
matchAll TypeError before producing any chunk at all. -/
theorem leading_section_dropped :
    sPlain ∈ bookTorah.sections ∧
    identifySemanticUnits bookTorah =
      [{ id := "torah_1", type := UnitType.torah, sections := [sTorah], tokenCount := 4,
         themes := [] }] ∧
    (∀ u ∈ identifySemanticUnits bookTorah, sPlain ∉ u.sections) ∧
    chunkBook (fun _ => "") bookTorah DEFAULT_OPTIONS = Except.error matchAllTypeError := by
  decide

/-- C2 (witness): the amended cover property applied to the concrete default
book. -/
theorem chunk_groups_cover_sections_witness :
    (strIncludes book30.id "likutey_moharan" = false) ∧
    groupsSections (groupUnitsIntoChunks (identifySemanticUnits book30) opts3) =
      book30.sections :=
  ⟨by decide, chunk_groups_cover_sections book30 opts3 (by decide) (by decide) (by decide)⟩

def bookLik : Book := { id := "likutey_moharan_1", title := "LM", sections := [sPlain] }

/-- C5 (code bug evaluation): a Likutey Moharan book with a non-empty section
list in which the Torah heuristic matches nothing produces zero semantic units
and chunkBook returns the empty chunk list (there is no fixed-size fallback
for heuristic-typed books); and for any book with at least one group, chunkBook
rejects with a TypeError because extractCitations calls matchAll with a
non-global RegExp, so chunking fails outright for every well-formed book. -/
theorem chunkBook_fails_outright :
    chunkBook (fun _ => "") bookLik DEFAULT_OPTIONS = Except.ok [] ∧
    bookLik.sections ≠ [] ∧
    chunkBook (fun _ => "") book30 opts3 = Except.error matchAllTypeError := by
  decide

/-! ## Lemmas about retrieveChunks and route (claims C1, C6, C7) -/

theorem truncateChunk_tokenCount (c : Chunk) (m : Nat) :
    (truncateChunk c m).metadata.tokenCount = m := rfl

theorem retrieveInner_inv (maxTokens : Nat) :
    ∀ (cs acc : List Chunk) (tot : Nat),
      (acc.map (·.metadata.tokenCount)).sum = tot → tot ≤ maxTokens →
      ((retrieveInner maxTokens cs acc tot).1.map (·.metadata.tokenCount)).sum =
        (retrieveInner maxTokens cs acc tot).2.1 ∧
      (retrieveInner maxTokens cs acc tot).2.1 ≤ maxTokens := by
  intro cs
  induction cs with
  | nil =>
    intro acc tot h1 h2
    simp [retrieveInner, h1, h2]
  | cons c rest ih =>
    intro acc tot h1 h2
    by_cases hov : tot + c.metadata.tokenCount > maxTokens
    · by_cases hsp : maxTokens - tot > 10000
      · simp only [retrieveInner, if_pos hov, if_pos hsp]
        refine ⟨?_, by omega⟩
        simp [truncateChunk_tokenCount, h1]
      · simp only [retrieveInner, if_pos hov, if_neg hsp]
        exact ⟨h1, h2⟩
    · simp only [retrieveInner, if_neg hov]
      exact ih (acc ++ [c]) (tot + c.metadata.tokenCount) (by simp [h1]) (by omega)

theorem retrieveGo_bound (store : String → String → Option Chunk) (maxTokens : Nat) :
    ∀ (cands : List SectionCandidate) (acc : List Chunk) (tot : Nat),
      (acc.map (·.metadata.tokenCount)).sum = tot → tot ≤ maxTokens →
      ((retrieveGo store maxTokens cands acc tot).map (·.metadata.tokenCount)).sum ≤
        maxTokens := by
  intro cands
  induction cands with
  | nil =>
    intro acc tot h1 h2
    simp only [retrieveGo]
    omega
  | cons cand rest ih =>
    intro acc tot h1 h2
    have hin := retrieveInner_inv maxTokens
      (loadChunksForSection store cand.bookId cand.chunkIds) acc tot h1 h2
    rcases htr : retrieveInner maxTokens
        (loadChunksForSection store cand.bookId cand.chunkIds) acc tot with ⟨acc', tot', e⟩
    rw [htr] at hin
    simp only at hin
    simp only [retrieveGo, htr]
    cases e
    · simp only [Bool.false_eq_true, if_false]
      by_cases h80 : 10 * tot' > 8 * maxTokens
      · simp only [if_pos h80]
        omega
      · simp only [if_neg h80]
        exact ih acc' tot' hin.1 hin.2
    · simp only [if_true]
      omega

theorem retrieveChunks_budget (store : String → String → Option Chunk)
    (cands : List SectionCandidate) (maxTokens : Nat) :
    ((retrieveChunks store cands maxTokens).map (·.metadata.tokenCount)).sum ≤ maxTokens :=
  retrieveGo_bound store maxTokens cands [] 0 (by simp) (by omega)

/-- sqrt stand-in for concrete router runs: the identity agrees with the real
Math.sqrt on the only inputs reached there, 0 and 1. -/
def sqrtId : JsRat → JsRat := fun q => q

def chunkC1 : Chunk :=
  { id := "c1", bookId := "book1", sectionId := "s1",
    content := { hebrew := "שמחה שמחה", english := none, french := none },
    metadata := { reference := "ref1", startIndex := 0, endIndex := 0, tokenCount := 600000,
                  themes := ["שמחה"], citations := [] } }

def summaryB1 : BookSummary :=
  { id := "book1", title := "Book One", hebrewTitle := "ספר", sections := 1, chunks := 1,
    totalTokens := 600000, themes := ["שמחה"], summary := "s", keywordEmbeddings := none }

def masterMI1 : MasterIndex :=
  { version := "1.0.0", created := 0, totalBooks := 1, totalTokens := 600000,
    books := [summaryB1], searchIndex := [("joie", ["book1:50"])],
    thematicMap := [("שמחה", [{ bookId := "book1", weight := ⟨1, 2⟩ }])] }

def sectionS1 : SectionInfo :=
  { id := "s1", title := "Section s1", themes := ["שמחה"], summary := "", chunkIds := ["c1"],
    tokenCount := 600000, keywords := ["joie"], embedding := none }

def bookIndexB1 : BookIndex :=
  { bookId := "book1", title := "Book One", hebrewTitle := "ספר", created := 0,
    bookStructure := { sections := [sectionS1], hierarchy := [] }, chunks := [],
    thematicMap := [], crossReferences := [], totalTokens := 600000 }

def routerA : Router :=
  { masterIndex := some masterMI1, bookIndexes := [("book1", bookIndexB1)],
    chunkStore := fun b c => if b = "book1" ∧ c = "c1" then some chunkC1 else none,
    cache := none, embedProvider := fun _ => none, sqrtFn := sqrtId }


set_option maxHeartbeats 1000000 in
/-- C1 (amended): on every call whose result is not served from the cache,
the returned chunk list's total token count (the sum of the chunks'
metadata.tokenCount, including a truncated final chunk) never exceeds the
requested maxTokens (defaulted to MAX_CONTEXT_TOKENS), and the totalTokens
field is exactly that sum.  A cache hit can violate the current request's
budget because the cache key is only the query hash, see the counterexample. -/
theorem route_budget (r : Router) (query : String) (options : SearchOptions)
    (res : RouteResult) (hok : route r query options = Except.ok res)
    (hnc : res.fromCache = false) :
    (res.chunks.map (·.metadata.tokenCount)).sum ≤
      options.maxTokens.getD MAX_CONTEXT_TOKENS ∧
    res.totalTokens = (res.chunks.map (·.metadata.tokenCount)).sum := by
  simp only [route] at hok
  split at hok
  · -- cache hit: fromCache is forced to true, contradicting hnc
    injection hok with h
    subst h
    simp at hnc
  · split at hok
    · exact absurd hok (by simp)
    · split at hok
      · injection hok with h
        subst h
        simp [createEmptyResult]
      · split at hok
        · injection hok with h
          subst h
          simp [createEmptyResult]
        · injection hok with h
          subst h
          constructor
          · exact retrieveChunks_budget r.chunkStore _ _
          · simp

def exR1 : RouteResult :=
  { query := "joie",
    books := [{ bookId := "book1", title := "Book One", score := ⟨60000, 200000⟩,
                reason := "Strong keyword match; Relevant themes: שמחה" }],
    sections := [{ bookId := "book1", sectionId := "s1", score := ⟨3000000, 20000000⟩,
                   chunkIds := ["c1"] }],
    chunks := [chunkC1],
    totalTokens := 600000,
    confidence := some ⟨23700, 90000⟩,
    fromCache := false,
    strategy := "HierarchicalRouting" }

/-- A router whose Redis cache holds, under the query "joie", exactly the
Route Result that routerA produced for that query under a 1,000,000-token
budget (the cache key contains no trace of the budget). -/
def routerB : Router :=
  { routerA with cache := some (fun q => if q = "joie" then some exR1 else none) }

/-- C1 (counterexample): the first call (budget 1,000,000) produces a 600,000
token result which is cached; a second call for the same query with a 50,000
token budget is answered from the cache with the same 600,000-token chunk
list, exceeding the requested maxTokens, because the cache key ignores the
options. -/
theorem cached_result_exceeds_budget :
    route routerA "joie" { maxTokens := some 1000000 } = Except.ok exR1 ∧
    route routerB "joie" { maxTokens := some 50000 } =
      Except.ok { exR1 with fromCache := true } ∧
    (({ exR1 with fromCache := true } : RouteResult).chunks.map
      (·.metadata.tokenCount)).sum = 600000 ∧
    ¬ ((600000 : Nat) ≤ 50000) := by
  decide

/-- C1 (witness): the amended budget bound applied to the concrete cache-miss
call of routerA. -/
theorem route_budget_witness :
    (route routerA "joie" { maxTokens := some 1000000 } = Except.ok exR1 ∧
     exR1.fromCache = false) ∧
    ((exR1.chunks.map (·.metadata.tokenCount)).sum ≤ 1000000 ∧
     exR1.totalTokens = (exR1.chunks.map (·.metadata.tokenCount)).sum) :=
  ⟨⟨by decide, rfl⟩,
   route_budget routerA "joie" { maxTokens := some 1000000 } exR1 (by decide) rfl⟩

/-- C6: once the master index is loaded and the cache does not answer the
query, whenever Level 1 returns no candidate books or Level 2 returns no
candidate sections, route returns — without throwing — the empty Route Result:
no books, sections or chunks, totalTokens 0, confidence 0 and strategy
NoResults. -/
theorem route_no_results (r : Router) (query : String) (options : SearchOptions)
    (mi : MasterIndex) (hmi : r.masterIndex = some mi)
    (hcache : cachedResult r (options.useCache.getD true) query = none)
    (hempty :
      searchMasterIndex r.sqrtFn mi (r.embedProvider query) (extractQueryKeywords query) =
        [] ∨
      searchBookIndexes r.sqrtFn r.bookIndexes
        (searchMasterIndex r.sqrtFn mi (r.embedProvider query) (extractQueryKeywords query))
        (r.embedProvider query) (extractQueryKeywords query) = []) :
    route r query options =
      Except.ok
        { query := query, books := [], sections := [], chunks := [], totalTokens := 0,
          confidence := some ⟨0, 1⟩, fromCache := false, strategy := "NoResults" } := by
  simp only [route, hcache, hmi]
  rcases hempty with hempty | hempty
  · simp [hempty, createEmptyResult]
  · rw [hempty]
    by_cases hb : (searchMasterIndex r.sqrtFn mi (r.embedProvider query)
        (extractQueryKeywords query)).isEmpty
    · simp [hb, createEmptyResult]
    · simp [hb, createEmptyResult]

/-- C6 (witness): a query sharing no keyword with the concrete master index
makes Level 1 empty and route returns the NoResults empty result. -/
theorem route_no_results_witness :
    (routerA.masterIndex = some masterMI1 ∧
     searchMasterIndex routerA.sqrtFn masterMI1 (routerA.embedProvider "zzzz")
       (extractQueryKeywords "zzzz") = []) ∧
    route routerA "zzzz" {} =
      Except.ok
        { query := "zzzz", books := [], sections := [], chunks := [], totalTokens := 0,
          confidence := some ⟨0, 1⟩, fromCache := false, strategy := "NoResults" } :=
  ⟨⟨rfl, by decide⟩,
   route_no_results routerA "zzzz" {} masterMI1 rfl rfl (Or.inl (by decide))⟩

/-! ## Lemmas about calculateConfidence (claim C7) -/

theorem JsRat.add_nn {a b : JsRat} (ha : 0 ≤ a.num ∧ 0 < a.den) (hb : 0 ≤ b.num ∧ 0 < b.den) :
    0 ≤ (a.add b).num ∧ 0 < (a.add b).den := by
  unfold JsRat.add
  constructor
  · exact add_nonneg (mul_nonneg ha.1 (Int.natCast_nonneg _))
      (mul_nonneg hb.1 (Int.natCast_nonneg _))
  · exact Nat.mul_pos ha.2 hb.2

theorem JsRat.mul_nn {a b : JsRat} (ha : 0 ≤ a.num ∧ 0 < a.den) (hb : 0 ≤ b.num ∧ 0 < b.den) :
    0 ≤ (a.mul b).num ∧ 0 < (a.mul b).den := by
  unfold JsRat.mul
  exact ⟨mul_nonneg ha.1 hb.1, Nat.mul_pos ha.2 hb.2⟩

theorem JsRat.minJ_nn {a b : JsRat} (ha : 0 ≤ a.num ∧ 0 < a.den) (hb : 0 ≤ b.num ∧ 0 < b.den) :
    0 ≤ (a.minJ b).num ∧ 0 < (a.minJ b).den := by
  unfold JsRat.minJ
  split
  · exact hb
  · exact ha

theorem JsRat.minJ_one_unit {x : JsRat} (hx : 0 ≤ x.num ∧ 0 < x.den) :
    0 ≤ (JsRat.minJ x ⟨1, 1⟩).num ∧
    (JsRat.minJ x ⟨1, 1⟩).num ≤ ((JsRat.minJ x ⟨1, 1⟩).den : Int) ∧
    0 < (JsRat.minJ x ⟨1, 1⟩).den := by
  unfold JsRat.minJ JsRat.ltB
  split
  · exact ⟨by decide, by decide, by decide⟩
  · next h =>
    simp only [decide_eq_true_eq, not_lt] at h
    refine ⟨hx.1, ?_, hx.2⟩
    simpa using h

theorem jsDiv_ofNat (m k : Nat) (hk : k ≠ 0) :
    jsDiv (JsRat.ofNat m) (JsRat.ofNat k) = some ⟨m, k⟩ := by
  unfold jsDiv JsRat.div JsRat.ofNat
  have hk' : ((k : Int)) ≠ 0 := by exact_mod_cast hk
  rw [if_neg hk']
  have hs : Int.sign (k : Int) = 1 := Int.sign_eq_one_of_pos (by positivity)
  simp [hs]

/-- C7 (amended): whenever the extracted query-keyword list is non-empty, the
confidence computed for any chunk list is a genuine number (not NaN) lying in
[0, 1]: its fraction has a positive denominator and a numerator between 0 and
that denominator.  The value is the source formula min(0.3*min(n/10,1) +
0.4*keywordCoverage + 0.3*themeAlignment, 1).  For an empty keyword list and a
non-empty chunk list the keyword-coverage division is 0/0 = NaN and route
returns a NaN confidence, not a number in [0,1] — see the counterexample. -/
theorem calculateConfidence_unit_interval (chunks : List Chunk) (kws : List String)
    (hkw : kws ≠ []) :
    ∃ v : JsRat, calculateConfidence chunks kws = some v ∧
      0 ≤ v.num ∧ v.num ≤ (v.den : Int) ∧ 0 < v.den := by
  cases hch : chunks.isEmpty
  · have hk0 : kws.length ≠ 0 := fun h => hkw (List.length_eq_zero.mp h)
    simp only [calculateConfidence, hch, Bool.false_eq_true, if_false]
    rw [jsDiv_ofNat _ _ hk0]
    simp only [jsAdd, jsMulC, jsMinC, Option.map_some']
    refine ⟨_, rfl, ?_⟩
    apply JsRat.minJ_one_unit
    apply JsRat.add_nn
    apply JsRat.add_nn
    · apply JsRat.mul_nn
      · apply JsRat.minJ_nn
        · exact ⟨by simp, by show (0 : Nat) < 10; decide⟩
        · exact ⟨by decide, by decide⟩
      · exact ⟨by decide, by decide⟩
    · apply JsRat.mul_nn
      · exact ⟨by simp, Nat.pos_of_ne_zero hk0⟩
      · exact ⟨by decide, by decide⟩
    · apply JsRat.mul_nn
      · refine ⟨by simp, ?_⟩
        show 0 < Nat.max kws.length 1
        exact Nat.lt_of_lt_of_le Nat.one_pos (Nat.le_max_right _ _)
      · exact ⟨by decide, by decide⟩
  · have hce : chunks = [] := List.isEmpty_iff.mp hch
    subst hce
    exact ⟨⟨0, 1⟩, by simp [calculateConfidence], by simp, by simp, by simp⟩

def chunkD1 : Chunk :=
  { id := "d1", bookId := "b0", sectionId := "s2",
    content := { hebrew := "אא", english := none, french := none },
    metadata := { reference := "ref2", startIndex := 0, endIndex := 0, tokenCount := 5,
                  themes := [], citations := [] } }

def summaryB0 : BookSummary :=
  { id := "b0", title := "B0", hebrewTitle := "ב", sections := 1, chunks := 1,
    totalTokens := 5, themes := [], summary := "", keywordEmbeddings := some [[⟨1, 1⟩]] }

def sectionS2 : SectionInfo :=
  { id := "s2", title := "Section s2", themes := [], summary := "", chunkIds := ["d1"],
    tokenCount := 5, keywords := [], embedding := some [⟨1, 1⟩] }

def masterMI2 : MasterIndex :=
  { version := "1.0.0", created := 0, totalBooks := 1, totalTokens := 5,
    books := [summaryB0], searchIndex := [], thematicMap := [] }

def bookIndexB0 : BookIndex :=
  { bookId := "b0", title := "B0", hebrewTitle := "ב", created := 0,
    bookStructure := { sections := [sectionS2], hierarchy := [] }, chunks := [],
    thematicMap := [], crossReferences := [], totalTokens := 5 }

def routerC : Router :=
  { masterIndex := some masterMI2, bookIndexes := [("b0", bookIndexB0)],
    chunkStore := fun b c => if b = "b0" ∧ c = "d1" then some chunkD1 else none,
    cache := none, embedProvider := fun _ => some [⟨1, 1⟩], sqrtFn := sqrtId }


def exRC : RouteResult :=
  { query := "ok",
    books := [{ bookId := "b0", title := "B0", score := ⟨400, 1000⟩,
                reason := "High semantic similarity" }],
    sections := [{ bookId := "b0", sectionId := "s2", score := ⟨200000, 1000000⟩,
                   chunkIds := ["d1"] }],
    chunks := [chunkD1],
    totalTokens := 5,
    confidence := none,
    fromCache := false,
    strategy := "HierarchicalRouting" }

/-- C7 (counterexample): the query "ok" extracts an empty keyword list (each
token is at most 2 characters, no Hebrew, no thematic key), yet the purely
semantic Level-1/Level-2 path retrieves a chunk; calculateConfidence then
divides 0 / 0 for keyword coverage, and route returns a NaN confidence (none
in the model) — not a number in [0, 1]. -/
theorem route_confidence_nan :
    extractQueryKeywords "ok" = [] ∧
    route routerC "ok" {} = Except.ok exRC ∧
    exRC.chunks ≠ [] ∧
    exRC.confidence = none := by
  decide

/-- C7 (witness): the amended [0,1] bound applied at a concrete non-empty
keyword list. -/
theorem calculateConfidence_unit_interval_witness :
    (["joie", "שמחה", "simcha"] ≠ ([] : List String)) ∧
    (∃ v : JsRat, calculateConfidence [chunkC1] ["joie", "שמחה", "simcha"] = some v ∧
      0 ≤ v.num ∧ v.num ≤ (v.den : Int) ∧ 0 < v.den) :=
  ⟨by decide, calculateConfidence_unit_interval [chunkC1] ["joie", "שמחה", "simcha"] (by decide)⟩

/-- C10 (amended): the Level-1 semantic signal is gated on the PRESENCE of the
keywordEmbeddings field of the first book summary (JS truthiness: an empty
array also passes the gate), not on its non-emptiness.  When the first summary
lacks the field (or there are no books), the semantic map stays empty for the
whole corpus — the search behaves exactly as if no query embedding existed, so
every book's score reduces to 0.3*lexical + 0.3*thematic.  When the first
summary carries an empty list, the gate is open and other books with non-empty
lists do receive semantic scores, contrary to the claim — see the
counterexample. -/
theorem searchMasterIndex_no_first_embeddings (sqrtFn : JsRat → JsRat) (mi : MasterIndex)
    (qe : Option (List JsRat)) (kws : List String)
    (h : ∀ b0, mi.books.head? = some b0 → b0.keywordEmbeddings = none) :
    searchMasterIndex sqrtFn mi qe kws = searchMasterIndex sqrtFn mi none kws := by
  unfold searchMasterIndex
  have hsem : semanticPass sqrtFn mi qe = semanticPass sqrtFn mi none := by
    unfold semanticPass
    cases hh : mi.books.head? with
    | none => simp [hh]
    | some b0 =>
      have hb0 := h b0 hh
      simp [hh, hb0]
  rw [hsem]

/-- C10 (witness): the amended gate equality applied to the concrete master
index whose single (hence first) book summary has no keywordEmbeddings field. -/
theorem searchMasterIndex_no_first_embeddings_witness :
    (masterMI1.books.head? = some summaryB1 ∧ summaryB1.keywordEmbeddings = none) ∧
    searchMasterIndex sqrtId masterMI1 (some [⟨1, 1⟩]) ["joie"] =
      searchMasterIndex sqrtId masterMI1 none ["joie"] :=
  ⟨⟨rfl, rfl⟩,
   searchMasterIndex_no_first_embeddings sqrtId masterMI1 (some [⟨1, 1⟩]) ["joie"]
     (fun b0 hb => by
       have hb' : some summaryB1 = some b0 := hb
       injection hb' with h
       rw [← h]
       rfl)⟩

def summaryB0e : BookSummary :=
  { id := "b0e", title := "B0e", hebrewTitle := "ב", sections := 0, chunks := 0,
    totalTokens := 0, themes := [], summary := "", keywordEmbeddings := some [] }

def summaryB1e : BookSummary :=
  { id := "b1e", title := "B1e", hebrewTitle := "ב", sections := 0, chunks := 0,
    totalTokens := 0, themes := [], summary := "", keywordEmbeddings := some [[⟨1, 1⟩]] }

def masterMI3 : MasterIndex :=
  { version := "1.0.0", created := 0, totalBooks := 2, totalTokens := 0,
    books := [summaryB0e, summaryB1e], searchIndex := [], thematicMap := [] }

/-- C10 (counterexample): a master index whose first book summary carries a
PRESENT but EMPTY keywordEmbeddings list opens the semantic gate (an empty
array is truthy in JS), and the second book, which does carry embeddings,
receives a purely semantic score of 0.4 — the claim predicted a semantic score
of 0 for every book (and hence an empty Level-1 result here, all other signals
being 0). -/
theorem semantic_gate_empty_first_list :
    masterMI3.books.head? = some summaryB0e ∧
    summaryB0e.keywordEmbeddings = some [] ∧
    searchMasterIndex sqrtId masterMI3 (some [⟨1, 1⟩]) [] =
      [{ bookId := "b1e", title := "B1e", score := ⟨400, 1000⟩,
         reason := "High semantic similarity" }] ∧
    ¬ ((⟨400, 1000⟩ : JsRat).isZero = true) := by
  decide

/-! ## Lemmas about findRelatedChunks (claim C9) -/

theorem mem_insertD {α : Type} (gtB : α → α → Bool) (x y : α) :
    ∀ (l : List α), y ∈ insertD gtB x l → y = x ∨ y ∈ l := by
  intro l
  induction l with
  | nil => intro h; simp [insertD] at h; exact Or.inl h
  | cons z rest ih =>
    intro h
    unfold insertD at h
    split at h
    · rcases List.mem_cons.mp h with h | h
      · exact Or.inr (by simp [h])
      · rcases ih h with h | h
        · exact Or.inl h
        · exact Or.inr (by simp [h])
    · rcases List.mem_cons.mp h with h | h
      · exact Or.inl h
      · exact Or.inr h

theorem mem_sortD {α : Type} (gtB : α → α → Bool) :
    ∀ (l : List α) (y : α), y ∈ sortD gtB l → y ∈ l := by
  intro l
  induction l with
  | nil => intro y h; simp [sortD] at h
  | cons x rest ih =>
    intro y h
    unfold sortD at h
    rcases mem_insertD gtB x y _ h with h | h
    · simp [h]
    · exact List.mem_cons_of_mem x (ih y h)

/-- C9 (amended): relatedChunks holds at most 5 ids, never the chunk's own id,
and every listed id belongs to some chunk of the WHOLE input map whose
similarity score (0.6 × theme overlap + 0.4 × keyword overlap) exceeds 0.3,
taken in stably-sorted descending score order — without any same-book
restriction: findRelatedChunks iterates over all chunk indexes of all books,
so ids of chunks from other books can and do appear (see the counterexample). -/
theorem findRelatedChunks_top5 (l : List ChunkIndex) :
    ∀ c ∈ findRelatedChunks l,
      c.relatedChunks.length ≤ 5 ∧
      ∀ i ∈ c.relatedChunks, i ≠ c.chunkId ∧
        ∃ o ∈ l, o.chunkId = i ∧ jsGtB (relatedScore c o) ⟨3, 10⟩ = true := by
  intro c hc
  rcases List.mem_map.mp hc with ⟨orig, horig, hceq⟩
  have hid : c.chunkId = orig.chunkId := by rw [← hceq]
  have hrel : c.relatedChunks = relatedFor l orig := by rw [← hceq]
  have hscore : ∀ o, relatedScore c o = relatedScore orig o := by
    intro o
    rw [← hceq]
    rfl
  constructor
  · rw [hrel]
    unfold relatedFor
    rw [List.length_map]
    have := List.length_take_le 5 (sortD (fun a b => JsRat.gtB a.2 b.2) (relatedCandidates l orig))
    omega
  · intro i hi
    rw [hrel] at hi
    unfold relatedFor at hi
    rcases List.mem_map.mp hi with ⟨pair, hpair, hfst⟩
    have hps : pair ∈ sortD (fun a b => JsRat.gtB a.2 b.2) (relatedCandidates l orig) :=
      List.mem_of_mem_take hpair
    have hpc : pair ∈ relatedCandidates l orig := mem_sortD _ _ pair hps
    rcases List.mem_filterMap.mp hpc with ⟨o, ho, hsome⟩
    by_cases heq : o.chunkId = orig.chunkId
    · rw [if_pos heq] at hsome
      exact absurd hsome (by simp)
    · rw [if_neg heq] at hsome
      cases hsc : relatedScore orig o with
      | none => simp [hsc] at hsome
      | some v =>
        simp only [hsc] at hsome
        by_cases hgt : v.gtB ⟨3, 10⟩ = true
        · rw [if_pos hgt] at hsome
          injection hsome with hsome
          subst hsome
          simp only at hfst
          subst hfst
          refine ⟨by rw [hid]; exact heq, o, ho, rfl, ?_⟩
          rw [hscore o, hsc]
          simpa [jsGtB] using hgt
        · rw [if_neg hgt] at hsome
          exact absurd hsome (by simp)

def ciX : ChunkIndex :=
  { chunkId := "a", bookId := "X", created := 0, reference := "rx", tokenCount := 1,
    themes := ["t"], keywords := ["kkk"], citations := [], relatedChunks := [],
    embedding := none, bm25Vector := [] }

def ciY : ChunkIndex :=
  { chunkId := "b", bookId := "Y", created := 0, reference := "ry", tokenCount := 1,
    themes := ["t"], keywords := ["kkk"], citations := [], relatedChunks := [],
    embedding := none, bm25Vector := [] }

/-- C9 (witness): the amended top-5 property applied to the first output entry
of a concrete two-chunk map. -/
theorem findRelatedChunks_top5_witness :
    ({ ciX with relatedChunks := ["b"] } ∈ findRelatedChunks [ciX, ciY]) ∧
    (({ ciX with relatedChunks := ["b"] } : ChunkIndex).relatedChunks.length ≤ 5 ∧
     ∀ i ∈ ({ ciX with relatedChunks := ["b"] } : ChunkIndex).relatedChunks,
       i ≠ ({ ciX with relatedChunks := ["b"] } : ChunkIndex).chunkId ∧
       ∃ o ∈ [ciX, ciY], o.chunkId = i ∧
         jsGtB (relatedScore { ciX with relatedChunks := ["b"] } o) ⟨3, 10⟩ = true) :=
  ⟨by decide, findRelatedChunks_top5 [ciX, ciY] _ (by decide)⟩

def chX : Chunk :=
  { id := "cx", bookId := "X", sectionId := "sx",
    content := { hebrew := "aaa", english := none, french := none },
    metadata := { reference := "rx", startIndex := 0, endIndex := 0, tokenCount := 1,
                  themes := ["תפילה"], citations := [] } }

def chY : Chunk :=
  { id := "cy", bookId := "Y", sectionId := "sy",
    content := { hebrew := "aaa", english := none, french := none },
    metadata := { reference := "ry", startIndex := 0, endIndex := 0, tokenCount := 1,
                  themes := ["תפילה"], citations := [] } }

/-- C9 (counterexample): building the chunk indexes for two one-chunk books
with identical themes and text, findRelatedChunks (which runs over the chunk
indexes of ALL books) records each chunk's id in the other's relatedChunks,
although the two chunks belong to different books. -/
theorem relatedChunks_cross_book :
    buildChunkIndexes 7 [("X", [chX]), ("Y", [chY])] =
      [{ chunkId := "cx", bookId := "X", created := 7, reference := "rx", tokenCount := 1,
         themes := ["תפילה"], keywords := ["aaa"], citations := [], relatedChunks := ["cy"],
         embedding := none, bm25Vector := [("aaa", ⟨1, 1⟩)] },
       { chunkId := "cy", bookId := "Y", created := 7, reference := "ry", tokenCount := 1,
         themes := ["תפילה"], keywords := ["aaa"], citations := [], relatedChunks := ["cx"],
         embedding := none, bm25Vector := [("aaa", ⟨1, 1⟩)] }] ∧
    chX.bookId ≠ chY.bookId := by
  decide

/-! ## Lemmas for rebuild idempotence (claim C8) -/

theorem stripBookIndex_build (now : Nat) (book : IndexedBook) (chunks : List Chunk) :
    stripBookIndex (buildBookIndex now book chunks) = buildBookIndex 0 book chunks := rfl

theorem build_eq_setCreated (now : Nat) (book : IndexedBook) (chunks : List Chunk) :
    buildBookIndex now book chunks = { buildBookIndex 0 book chunks with created := now } := rfl

theorem stripBookIndex_compress (bi : BookIndex) :
    stripBookIndex (compressBookIndex bi) = compressBookIndex (stripBookIndex bi) := rfl

theorem stripMaster_compress (mi : MasterIndex) :
    stripMaster (compressMasterIndex mi) = compressMasterIndex (stripMaster mi) := rfl

theorem stripBookIndexes_build (sizeB : BookIndex → Nat)
    (hB : ∀ (bi : BookIndex) (n : Nat), sizeB { bi with created := n } = sizeB bi)
    (now : Nat) (books : List IndexedBook) (chunksMap : List (String × List Chunk)) :
    stripBookIndexes (buildBookIndexes sizeB now books chunksMap) =
      buildBookIndexes sizeB 0 books chunksMap := by
  unfold stripBookIndexes buildBookIndexes
  rw [List.map_map]
  apply List.map_congr_left
  intro b _
  simp only [Function.comp_apply]
  have hsize : sizeB (buildBookIndex now b ((aGet chunksMap b.id).getD [])) =
      sizeB (buildBookIndex 0 b ((aGet chunksMap b.id).getD [])) := by
    rw [build_eq_setCreated now b, hB]
  rw [hsize]
  by_cases hcomp : sizeB (buildBookIndex 0 b ((aGet chunksMap b.id).getD [])) > 200000
  · rw [if_pos hcomp, if_pos hcomp]
    rw [stripBookIndex_compress, stripBookIndex_build]
  · rw [if_neg hcomp, if_neg hcomp]
    rw [stripBookIndex_build]

theorem aGet_map_strip (B : List (String × BookIndex)) (k : String) :
    aGet (stripBookIndexes B) k = (aGet B k).map stripBookIndex := by
  induction B with
  | nil => simp [stripBookIndexes, aGet]
  | cons p rest ih =>
    simp only [stripBookIndexes, List.map_cons, aGet]
    by_cases hk : p.1 = k
    · rw [if_pos hk, if_pos hk]
      simp
    · rw [if_neg hk, if_neg hk]
      simpa [stripBookIndexes] using ih

theorem buildMasterIndex_strip_input (sizeM : MasterIndex → Nat) (now : Nat)
    (books : List IndexedBook) (B : List (String × BookIndex)) :
    buildMasterIndex sizeM now books (stripBookIndexes B) =
      buildMasterIndex sizeM now books B := by
  unfold buildMasterIndex
  have hfold : ∀ (acc : List BookSummary × List (String × List String) ×
      List (String × List BookReference) × Nat),
      books.foldl
        (fun acc b =>
          match aGet (stripBookIndexes B) b.id with
          | none => acc
          | some bookIndex =>
            (acc.1 ++ [{ id := b.id, title := b.title, hebrewTitle := b.hebrewTitle,
                         sections := bookIndex.bookStructure.sections.length,
                         chunks := bookIndex.chunks.length,
                         totalTokens := bookIndex.totalTokens,
                         themes := extractTopThemes bookIndex,
                         summary := generateBookSummary b bookIndex,
                         keywordEmbeddings := some [] }],
             updateGlobalSearchIndex acc.2.1 b.id bookIndex,
             updateGlobalThematicMap acc.2.2.1 b.id bookIndex,
             acc.2.2.2 + bookIndex.totalTokens)) acc =
      books.foldl
        (fun acc b =>
          match aGet B b.id with
          | none => acc
          | some bookIndex =>
            (acc.1 ++ [{ id := b.id, title := b.title, hebrewTitle := b.hebrewTitle,
                         sections := bookIndex.bookStructure.sections.length,
                         chunks := bookIndex.chunks.length,
                         totalTokens := bookIndex.totalTokens,
                         themes := extractTopThemes bookIndex,
                         summary := generateBookSummary b bookIndex,
                         keywordEmbeddings := some [] }],
             updateGlobalSearchIndex acc.2.1 b.id bookIndex,
             updateGlobalThematicMap acc.2.2.1 b.id bookIndex,
             acc.2.2.2 + bookIndex.totalTokens)) acc := by
    induction books with
    | nil => intro acc; rfl
    | cons b rest ihb =>
      intro acc
      simp only [List.foldl_cons]
      rw [aGet_map_strip]
      cases hget : aGet B b.id with
      | none => simp only [Option.map_none']; exact ihb _
      | some bi =>
        simp only [Option.map_some']
        have harm : ∀ (acc' : List BookSummary × List (String × List String) ×
            List (String × List BookReference) × Nat),
            (acc'.1 ++ [{ id := b.id, title := b.title, hebrewTitle := b.hebrewTitle,
                          sections := (stripBookIndex bi).bookStructure.sections.length,
                          chunks := (stripBookIndex bi).chunks.length,
                          totalTokens := (stripBookIndex bi).totalTokens,
                          themes := extractTopThemes (stripBookIndex bi),
                          summary := generateBookSummary b (stripBookIndex bi),
                          keywordEmbeddings := some [] }],
             updateGlobalSearchIndex acc'.2.1 b.id (stripBookIndex bi),
             updateGlobalThematicMap acc'.2.2.1 b.id (stripBookIndex bi),
             acc'.2.2.2 + (stripBookIndex bi).totalTokens) =
            (acc'.1 ++ [{ id := b.id, title := b.title, hebrewTitle := b.hebrewTitle,
                          sections := bi.bookStructure.sections.length,
                          chunks := bi.chunks.length,
                          totalTokens := bi.totalTokens,
                          themes := extractTopThemes bi,
                          summary := generateBookSummary b bi,
                          keywordEmbeddings := some [] }],
             updateGlobalSearchIndex acc'.2.1 b.id bi,
             updateGlobalThematicMap acc'.2.2.1 b.id bi,
             acc'.2.2.2 + bi.totalTokens) := fun _ => rfl
        rw [harm]
        exact ihb _
  rw [hfold]

theorem stripMaster_ite (sizeM : MasterIndex → Nat)
    (hM : ∀ (mi : MasterIndex) (n : Nat), sizeM { mi with created := n } = sizeM mi)
    (mi : MasterIndex) :
    stripMaster (if sizeM mi > 100000 then compressMasterIndex mi else mi) =
      (if sizeM (stripMaster mi) > 100000 then compressMasterIndex (stripMaster mi)
       else stripMaster mi) := by
  have hsz : sizeM (stripMaster mi) = sizeM mi := hM mi 0
  rw [hsz]
  by_cases h : sizeM mi > 100000
  · rw [if_pos h, if_pos h, stripMaster_compress]
  · rw [if_neg h, if_neg h]

theorem stripMaster_build (sizeM : MasterIndex → Nat)
    (hM : ∀ (mi : MasterIndex) (n : Nat), sizeM { mi with created := n } = sizeM mi)
    (now : Nat) (books : List IndexedBook) (B : List (String × BookIndex)) :
    stripMaster (buildMasterIndex sizeM now books B) = buildMasterIndex sizeM 0 books B := by
  unfold buildMasterIndex
  exact stripMaster_ite sizeM hM _

/-- C8: rebuild idempotence — two runs of buildAllIndexes from identical books
and chunk input, differing only in the clock (every `new Date()` is the `now`
parameter), produce structurally identical Master and Book Indexes once the
`created` timestamps are erased.  The JSON size estimator is abstracted as
sizeM / sizeB with the hypothesis that it is insensitive to the created field,
which holds for Math.ceil(JSON.stringify(x).length / 4) because Date values
serialise at a fixed 24-character width. -/
theorem buildAllIndexes_idempotent (sizeM : MasterIndex → Nat) (sizeB : BookIndex → Nat)
    (hM : ∀ (mi : MasterIndex) (n : Nat), sizeM { mi with created := n } = sizeM mi)
    (hB : ∀ (bi : BookIndex) (n : Nat), sizeB { bi with created := n } = sizeB bi)
    (books : List IndexedBook) (chunksMap : List (String × List Chunk)) (t₁ t₂ : Nat) :
    stripMaster (buildAllIndexes sizeM sizeB t₁ books chunksMap).masterIndex =
      stripMaster (buildAllIndexes sizeM sizeB t₂ books chunksMap).masterIndex ∧
    stripBookIndexes (buildAllIndexes sizeM sizeB t₁ books chunksMap).bookIndexes =
      stripBookIndexes (buildAllIndexes sizeM sizeB t₂ books chunksMap).bookIndexes := by
  have key : ∀ t : Nat,
      stripMaster (buildAllIndexes sizeM sizeB t books chunksMap).masterIndex =
        buildMasterIndex sizeM 0 books (buildBookIndexes sizeB 0 books chunksMap) ∧
      stripBookIndexes (buildAllIndexes sizeM sizeB t books chunksMap).bookIndexes =
        buildBookIndexes sizeB 0 books chunksMap := by
    intro t
    constructor
    · show stripMaster (buildMasterIndex sizeM t books (buildBookIndexes sizeB t books
        chunksMap)) = _
      rw [stripMaster_build sizeM hM]
      rw [← buildMasterIndex_strip_input sizeM 0 books (buildBookIndexes sizeB t books
        chunksMap)]
      rw [stripBookIndexes_build sizeB hB]
    · show stripBookIndexes (buildBookIndexes sizeB t books chunksMap) = _
      exact stripBookIndexes_build sizeB hB t books chunksMap
  exact ⟨(key t₁).1.trans (key t₂).1.symm, (key t₁).2.trans (key t₂).2.symm⟩

def sizeZeroM : MasterIndex → Nat := fun _ => 0

def sizeZeroB : BookIndex → Nat := fun _ => 0

def exIdxBooks : List IndexedBook := [{ id := "X", title := "T", hebrewTitle := "ת" }]

def exChunksMap : List (String × List Chunk) := [("X", [chX])]

/-- C8 (witness): idempotence applied at a concrete one-book corpus with two
different clock values. -/
theorem buildAllIndexes_idempotent_witness :
    ((∀ (mi : MasterIndex) (n : Nat), sizeZeroM { mi with created := n } = sizeZeroM mi) ∧
     (∀ (bi : BookIndex) (n : Nat), sizeZeroB { bi with created := n } = sizeZeroB bi)) ∧
    (stripMaster (buildAllIndexes sizeZeroM sizeZeroB 1 exIdxBooks exChunksMap).masterIndex =
       stripMaster (buildAllIndexes sizeZeroM sizeZeroB 2 exIdxBooks exChunksMap).masterIndex ∧
     stripBookIndexes
         (buildAllIndexes sizeZeroM sizeZeroB 1 exIdxBooks exChunksMap).bookIndexes =
       stripBookIndexes
         (buildAllIndexes sizeZeroM sizeZeroB 2 exIdxBooks exChunksMap).bookIndexes) :=
  ⟨⟨fun _ _ => rfl, fun _ _ => rfl⟩,
   buildAllIndexes_idempotent sizeZeroM sizeZeroB (fun _ _ => rfl) (fun _ _ => rfl)
     exIdxBooks exChunksMap 1 2⟩
